import Mathlib

/-!
# Verification of the claude-code-sessions aggregation engine

A shallow embedding of the DuckDB query logic of the repository
(weekly / hourly / top-N / summary / sessions-list / daily-drilldown /
schema-timeline queries) together with proofs about the claims of the
specification.

Conventions of the embedding:
* every log record is a `Record`: the fields the queries touch, each
  nullable field an `Option`;
* the `timestamp` string field is modelled as `Option (Option Nat)`:
  the outer `Option` is field presence (`timestamp IS NOT NULL`), the
  inner one is the result of `TRY_CAST` (minutes since the Unix epoch);
* money is `Rat`; `ROUND(x, k)` is half-away-from-zero rounding;
* SQL `LEFT JOIN` against the pricing table is `List.find?` (the
  pricing CSV carries one row per model family / model id);
* `regexp_extract` over file paths is modelled segment-wise on the
  `/`-separated path, matching the patterns of the source on paths of
  the shape the repository produces; a failed extraction yields `""`
  exactly as DuckDB's `regexp_extract` does;
* the DuckDB session timezone is UTC, so `DATE_TRUNC` over a
  `TIMESTAMPTZ` value yields the UTC calendar day, while
  `AT TIME ZONE 'Australia/Melbourne'` first shifts the instant by the
  Melbourne UTC offset (AEST +10:00 / AEDT +11:00 with the real
  first-Sunday-of-October / first-Sunday-of-April transitions).
-/

namespace ClaudeSessions

/-! ## Calendar arithmetic -/

/-- Minutes in a day. -/
def minutesPerDay : Nat := 1440

/-- UTC calendar day (days since 1970-01-01) of an instant given in
minutes since the Unix epoch. -/
def dayOf (t : Nat) : Nat := t / minutesPerDay

/-- Hour of day (0..23) of an instant given in minutes since epoch. -/
def hourOf (t : Nat) : Nat := t % minutesPerDay / 60

/-- ISO weekday of a day number: Monday = 1 .. Sunday = 7
(1970-01-01, day 0, was a Thursday). -/
def isoWeekday (d : Nat) : Nat := (d + 3) % 7 + 1

/-- `DATE_TRUNC('week', ·)`: the Monday on or before the given day
number (day 4 = 1970-01-05 was a Monday). -/
def mondayOf (d : Nat) : Nat := d - (d + 3) % 7

/-- Civil date from a day number (days since 1970-01-01); the standard
Gregorian calendar algorithm, shifted to era base 0000-03-01. -/
def civilFromDays (z : Nat) : Nat × Nat × Nat :=
  let z' := z + 719468
  let era := z' / 146097
  let doe := z' % 146097
  let yoe := (doe - doe / 1460 + doe / 36524 - doe / 146096) / 365
  let y := yoe + era * 400
  let doy := doe - (365 * yoe + yoe / 4 - yoe / 100)
  let mp := (5 * doy + 2) / 153
  let d := doy - (153 * mp + 2) / 5 + 1
  let m := if mp < 10 then mp + 3 else mp - 9
  if m ≤ 2 then (y + 1, m, d) else (y, m, d)

/-- Day number (days since 1970-01-01) of a civil date, valid for years
from 1970 on. -/
def daysFromCivil (y m d : Nat) : Nat :=
  let y' := if m ≤ 2 then y - 1 else y
  let era := y' / 400
  let yoe := y' - era * 400
  let mp := if 2 < m then m - 3 else m + 9
  let doy := (153 * mp + 2) / 5 + d - 1
  let doe := yoe * 365 + yoe / 4 - yoe / 100 + doy
  era * 146097 + doe - 719468

/-- `DATE_TRUNC('month', ·)`: the first day of the month of a day
number. -/
def monthTruncOf (z : Nat) : Nat :=
  let c := civilFromDays z
  daysFromCivil c.1 c.2.1 1

/-- Day of month (1..7) of the first Sunday of a month. -/
def firstSundayOfMonth (y m : Nat) : Nat :=
  (((List.range 7).map (· + 1)).find? fun d =>
    isoWeekday (daysFromCivil y m d) == 7).getD 1

/-- The UTC instant (minutes since epoch) at which Melbourne switches
offset around the first Sunday of month `m` of year `y`: both the
October start (02:00 AEST) and the April end (03:00 AEDT) of daylight
saving fall on 16:00 UTC of the preceding Saturday. -/
def melbourneTransition (y m : Nat) : Nat :=
  daysFromCivil y m (firstSundayOfMonth y m) * minutesPerDay - 480

/-- UTC offset of `Australia/Melbourne` in minutes at a UTC instant:
+11:00 during daylight saving (first Sunday of October to first Sunday
of April), +10:00 otherwise. -/
def melbourneOffsetMin (t : Nat) : Nat :=
  let c := civilFromDays (dayOf t)
  let y := c.1
  let m := c.2.1
  if 5 ≤ m ∧ m ≤ 9 then 600
  else if m = 4 then (if t < melbourneTransition y 4 then 660 else 600)
  else if m = 10 then (if melbourneTransition y 10 ≤ t then 660 else 600)
  else 660

/-- `AT TIME ZONE 'Australia/Melbourne'`: the local wall-clock value of
a UTC instant, as minutes since the epoch of the local calendar. -/
def toMelbourne (t : Nat) : Nat := t + melbourneOffsetMin t

/-! ## Money and rounding -/

/-- `ROUND(q, k)`: round to `k` decimal places, half away from zero,
as DuckDB's `ROUND` does. -/
def roundTo (k : Nat) (q : Rat) : Rat :=
  if 0 ≤ q then (⌊q * 10 ^ k + 1 / 2⌋ : Int) / (10 ^ k : Rat)
  else -((⌊-q * 10 ^ k + 1 / 2⌋ : Int) / (10 ^ k : Rat))

/-! ## Path helpers (the `regexp_extract` / `LIKE` patterns) -/

/-- Split a character list at `/` into path segments. -/
def splitSlash : List Char → List Char → List (List Char)
  | [], acc => [acc.reverse]
  | '/' :: rest, acc => acc.reverse :: splitSlash rest []
  | c :: rest, acc => splitSlash rest (c :: acc)

/-- Path segments of a file name. -/
def segsOf (fn : String) : List (List Char) := splitSlash fn.data []

/-- `regexp_extract(filename, 'projects/([^/]+)/', 1)` on a
`/`-separated path: the non-empty segment right after a `projects`
segment, provided a further `/` follows. -/
def projectSeg : List (List Char) → Option (List Char)
  | ['p','r','o','j','e','c','t','s'] :: pid :: _ :: _ =>
      if pid.isEmpty then none else some pid
  | _ :: rest => projectSeg rest
  | [] => none

/-- Project id of a file path; `""` when the pattern does not match,
as `regexp_extract` yields the empty string then. -/
def projectOf (fn : String) : String :=
  match projectSeg (segsOf fn) with
  | some s => String.mk s
  | none => ""

/-- `regexp_extract(filename, '/([^/]+)\.jsonl$', 1)`: the final path
segment with its `.jsonl` suffix removed; `""` when the pattern does
not match. -/
def fileStem (fn : String) : String :=
  match (segsOf fn).reverse with
  | last :: _ :: _ =>
      let r := last.reverse
      match r with
      | 'l' :: 'n' :: 'o' :: 's' :: 'j' :: '.' :: rest =>
          if rest.isEmpty then "" else String.mk rest.reverse
      | _ => ""
  | _ => ""

/-- `filename LIKE '%/subagents/%'`: a `subagents` path segment that is
neither the first nor the last segment. -/
def hasSubagentsDir : List (List Char) → Bool
  | _ :: ['s','u','b','a','g','e','n','t','s'] :: _ :: _ => true
  | _ :: rest => hasSubagentsDir rest
  | [] => false

/-- `filename LIKE '%/subagents/%'` on a file name. -/
def isSubagentsPath (fn : String) : Bool := hasSubagentsDir (segsOf fn)

/-- `regexp_extract(filename, 'projects/[^/]+/([^/]+)/subagents/', 1)`:
the session segment of a new-style subagent transcript path. -/
def newStyleSeg : List (List Char) → Option (List Char)
  | ['p','r','o','j','e','c','t','s'] :: pid :: sid ::
      ['s','u','b','a','g','e','n','t','s'] :: _ :: _ =>
      if pid.isEmpty ∨ sid.isEmpty then none else some sid
  | _ :: rest => newStyleSeg rest
  | [] => none

/-- Session id extracted from a new-style subagent path; `""` when the
pattern does not match. -/
def newStyleSession (fn : String) : String :=
  match newStyleSeg (segsOf fn) with
  | some s => String.mk s
  | none => ""

/-- Does `pat` occur as a prefix of `s`? (character-list version). -/
def prefixCh : List Char → List Char → Bool
  | [], _ => true
  | _ :: _, [] => false
  | p :: ps, c :: cs => p == c && prefixCh ps cs

/-- Does `pat` occur as a contiguous run inside `s`?
(`s LIKE '%pat%'`). -/
def hasSub (pat : List Char) : List Char → Bool
  | [] => pat.isEmpty
  | c :: rest => prefixCh pat (c :: rest) || hasSub pat rest

/-- `s LIKE '%pat%'` on strings. -/
def containsTok (s pat : String) : Bool := hasSub pat.data s.data

/-- `s LIKE 'pat%'` on strings. -/
def startsWithTok (s pat : String) : Bool := prefixCh pat.data s.data

/-! ## List helpers shared by the grouping queries -/

/-- Distinct values of a list in first-appearance order (the key set of
a SQL `GROUP BY`). -/
def keysOf [DecidableEq α] (l : List α) : List α :=
  l.foldl (fun acc k => if k ∈ acc then acc else acc ++ [k]) []

/-- `COUNT(DISTINCT x)` over non-null values. -/
def distinctCount [DecidableEq α] (l : List α) : Nat := (keysOf l).length

/-- Sum of a rational-valued measure over a list of rows
(`SUM(f x)` with every operand non-null). -/
def sumQ (l : List α) (f : α → Rat) : Rat := (l.map f).sum

/-- Sum of a natural-valued measure over a list of rows. -/
def sumN (l : List α) (f : α → Nat) : Nat := (l.map f).sum

/-! ## Data model: records, usage blocks, pricing -/

/-- `message.usage` of a record: every token field optional. -/
structure Usage where
  input_tokens : Option Nat
  cache_creation_input_tokens : Option Nat
  cache_read_input_tokens : Option Nat
  ephemeral_5m_input_tokens : Option Nat
  ephemeral_1h_input_tokens : Option Nat
  output_tokens : Option Nat
  deriving DecidableEq, Repr

/-- One parsed line of a session log file, together with the name of
the file it came from (`filename=true` of `read_json_auto`).  The
`timestamp` field is `Option (Option Nat)`: outer `Option` = field
presence, inner = the `TRY_CAST` parse result in minutes since epoch.
`model`/`usage` stand for `message.model`/`message.usage` (absent when
`message` itself is absent). -/
structure Record where
  filename : String
  sessionId : Option String := none
  agentId : Option String := none
  isSidechain : Option Bool := none
  slug : Option String := none
  typ : Option String := none
  timestamp : Option (Option Nat) := none
  version : Option String := none
  uuid : Option String := none
  parentUuid : Option String := none
  model : Option String := none
  usage : Option Usage := none
  deriving DecidableEq, Repr

/-- `timestamp IS NOT NULL` — the field is present (whether or not it
parses). -/
def tsPresent (r : Record) : Bool := r.timestamp.isSome

/-- `TRY_CAST(timestamp AS TIMESTAMP)` / `... AS TIMESTAMPTZ`: the
parsed instant, `none` when the field is absent or malformed. -/
def tsParsed (r : Record) : Option Nat := r.timestamp.bind id

/-- `message.usage.input_tokens` etc. -/
def iTok (r : Record) : Option Nat := r.usage.bind (·.input_tokens)

def ccTok (r : Record) : Option Nat :=
  r.usage.bind (·.cache_creation_input_tokens)

def crTok (r : Record) : Option Nat :=
  r.usage.bind (·.cache_read_input_tokens)

def e5Tok (r : Record) : Option Nat :=
  r.usage.bind (·.ephemeral_5m_input_tokens)

def e1Tok (r : Record) : Option Nat :=
  r.usage.bind (·.ephemeral_1h_input_tokens)

def oTok (r : Record) : Option Nat := r.usage.bind (·.output_tokens)

/-- `COALESCE(x, 0)` on a nullable token count. -/
def n0 (o : Option Nat) : Nat := o.getD 0

/-- `COALESCE(TRY_CAST(isSidechain AS BOOLEAN), false)`. -/
def sidechainOf (r : Record) : Bool := r.isSidechain.getD false

/-- One row of the pricing CSV: a model family, an exact model id, and
the five USD-per-million-token prices. -/
structure PriceRow where
  model_family : String
  model_id : String
  base_input_price : Rat
  cache_5m_write_price : Rat
  cache_1h_write_price : Rat
  cache_read_price : Rat
  output_price : Rat
  deriving DecidableEq, Repr

/-- The `CASE WHEN message.model LIKE '%opus%' ...` model-family
classifier; a `NULL` model yields `'unknown'` because `LIKE` on `NULL`
is not true. -/
def modelFamily (m : Option String) : String :=
  match m with
  | some s =>
      if containsTok s "opus" then "opus"
      else if containsTok s "sonnet" then "sonnet"
      else if containsTok s "haiku" then "haiku"
      else "unknown"
  | none => "unknown"

/-- `LEFT JOIN pricing p ON pd.model_family = p.model_family`. -/
def famPrice (P : List PriceRow) (fam : String) : Option PriceRow :=
  P.find? (fun p => decide (p.model_family = fam))

/-- `LEFT JOIN pricing p ON u.model_id = p.model_id` (a `NULL` model id
joins nothing). -/
def modelPrice (P : List PriceRow) (mid : Option String) :
    Option PriceRow :=
  match mid with
  | some m => P.find? (fun p => decide (p.model_id = m))
  | none => none

/-- `COALESCE(p.f, 0)` on the outcome of a left join. -/
def prF (p : Option PriceRow) (f : PriceRow → Rat) : Rat :=
  match p with
  | some x => f x
  | none => 0

/-! ## The weekly aggregation query (Weekly Aggregation SQL)

`parsed_data` filtered by `message.usage IS NOT NULL`, grouped by
`(project_id, model_id, week, model_family)`; the `week` column is
`DATE_TRUNC('week', TRY_CAST(timestamp AS TIMESTAMP))::DATE` — the
string's clock fields are used as-is (DuckDB ignores a zone suffix when
casting to naive `TIMESTAMP`), so the bucket is the Monday of the UTC
week, and it is `NULL` when the timestamp does not parse. -/

/-- The week bucket of a record in the weekly query. -/
def weekBucket (r : Record) : Option Nat :=
  (tsParsed r).map fun t => mondayOf (dayOf t)

/-- The day bucket of the weekly query (`DATE_TRUNC('day', ...)` over
the naive timestamp). -/
def dayBucket (r : Record) : Option Nat := (tsParsed r).map dayOf

/-- The month bucket of the weekly query. -/
def monthBucket (r : Record) : Option Nat :=
  (tsParsed r).map fun t => monthTruncOf (dayOf t)

/-- `WHERE message.usage IS NOT NULL`. -/
def usageFilter (rs : List Record) : List Record :=
  rs.filter (·.usage.isSome)

/-- The group key of the weekly query. -/
def weeklyKey (r : Record) : String × Option String × Option Nat × String :=
  (projectOf r.filename, r.model, weekBucket r, modelFamily r.model)

/-- One per-event cost component against the outcome of a pricing left
join: `(COALESCE(tok, 0) / 1000000.0) * COALESCE(price, 0)`. -/
def compCost (p : Option PriceRow) (tok : Option Nat)
    (f : PriceRow → Rat) : Rat :=
  (n0 tok : Rat) / 1000000 * prF p f

/-- The pricing row a record joins in the family-joining queries. -/
def famJoin (P : List PriceRow) (r : Record) : Option PriceRow :=
  famPrice P (modelFamily r.model)

/-- The five per-event cost components of the family-joining queries
(base input, cache 5m write, cache 1h write, cache read, output). -/
def costBase (P : List PriceRow) (r : Record) : Rat :=
  compCost (famJoin P r) (iTok r) (·.base_input_price)

def cost5m (P : List PriceRow) (r : Record) : Rat :=
  compCost (famJoin P r) (e5Tok r) (·.cache_5m_write_price)

def cost1h (P : List PriceRow) (r : Record) : Rat :=
  compCost (famJoin P r) (e1Tok r) (·.cache_1h_write_price)

def costRead (P : List PriceRow) (r : Record) : Rat :=
  compCost (famJoin P r) (crTok r) (·.cache_read_price)

def costOut (P : List PriceRow) (r : Record) : Rat :=
  compCost (famJoin P r) (oTok r) (·.output_price)

/-- The per-event five-component cost expression inside
`ROUND(SUM(...), 4)` of the weekly query. -/
def weeklyCostExpr (P : List PriceRow) (r : Record) : Rat :=
  costBase P r + cost5m P r + cost1h P r + costRead P r + costOut P r

/-- One output row of the weekly aggregation query. -/
structure WeeklyRow where
  project_id : String
  model_id : Option String
  time_bucket : Option Nat
  total_cost_usd : Rat
  session_count : Nat
  event_count : Nat
  total_input_tokens : Nat
  total_cache_creation_input_tokens : Nat
  total_cache_read_input_tokens : Nat
  total_ephemeral_5m_input_tokens : Nat
  total_ephemeral_1h_input_tokens : Nat
  total_output_tokens : Nat
  total_all_tokens : Nat
  cost_base_input : Rat
  cost_cache_5m_writes : Rat
  cost_cache_1h_writes : Rat
  cost_cache_reads : Rat
  cost_output : Rat
  deriving DecidableEq, Repr

/-- Build the weekly output row of one group. -/
def weeklyRowOf (P : List PriceRow)
    (k : String × Option String × Option Nat × String)
    (g : List Record) : WeeklyRow :=
  { project_id := k.1
    model_id := k.2.1
    time_bucket := k.2.2.1
    total_cost_usd := roundTo 4 (sumQ g (weeklyCostExpr P))
    session_count := distinctCount (g.map (fun r => fileStem r.filename))
    event_count := g.length
    total_input_tokens := sumN g (fun r => n0 (iTok r))
    total_cache_creation_input_tokens := sumN g (fun r => n0 (ccTok r))
    total_cache_read_input_tokens := sumN g (fun r => n0 (crTok r))
    total_ephemeral_5m_input_tokens := sumN g (fun r => n0 (e5Tok r))
    total_ephemeral_1h_input_tokens := sumN g (fun r => n0 (e1Tok r))
    total_output_tokens := sumN g (fun r => n0 (oTok r))
    total_all_tokens :=
      sumN g (fun r => n0 (iTok r)) + sumN g (fun r => n0 (ccTok r)) +
        sumN g (fun r => n0 (crTok r)) + sumN g (fun r => n0 (oTok r))
    cost_base_input := roundTo 4 (sumQ g (costBase P))
    cost_cache_5m_writes := roundTo 4 (sumQ g (cost5m P))
    cost_cache_1h_writes := roundTo 4 (sumQ g (cost1h P))
    cost_cache_reads := roundTo 4 (sumQ g (costRead P))
    cost_output := roundTo 4 (sumQ g (costOut P)) }

/-- The `GROUP BY` key set of the weekly query. -/
def weeklyKeys (rs : List Record) :
    List (String × Option String × Option Nat × String) :=
  keysOf ((usageFilter rs).map weeklyKey)

/-- The group of a weekly key. -/
def weeklyGroup (rs : List Record)
    (k : String × Option String × Option Nat × String) : List Record :=
  (usageFilter rs).filter (fun r => decide (weeklyKey r = k))

/-- The output row of one weekly key. -/
def weeklyBuild (rs : List Record) (P : List PriceRow)
    (k : String × Option String × Option Nat × String) : WeeklyRow :=
  weeklyRowOf P k (weeklyGroup rs k)

/-- The weekly aggregation query: rows of every `GROUP BY` group of
the usage-bearing records (output ordering is not modelled). -/
def weeklyRows (rs : List Record) (P : List PriceRow) : List WeeklyRow :=
  (weeklyKeys rs).map (weeklyBuild rs P)

/-! ## The hourly aggregation query (Hourly Aggregation SQL)

Here the timestamp is cast to `TIMESTAMPTZ` and shifted
`AT TIME ZONE 'Australia/Melbourne'` before the day truncation and the
hour extraction. -/

/-- Melbourne-local calendar day of a record in the hourly query. -/
def hourlyDate (r : Record) : Option Nat :=
  (tsParsed r).map fun t => dayOf (toMelbourne t)

/-- Melbourne-local hour of day of a record in the hourly query. -/
def hourlyHour (r : Record) : Option Nat :=
  (tsParsed r).map fun t => hourOf (toMelbourne t)

/-- One output row of the hourly aggregation query. -/
structure HourlyRow where
  project_id : String
  time_bucket : Option Nat
  hour_of_day : Option Nat
  total_cost_usd : Rat
  input_tokens : Nat
  output_tokens : Nat
  total_tokens : Nat
  session_count : Nat
  event_count : Nat
  deriving DecidableEq, Repr

/-- The `GROUP BY` key of the hourly query. -/
def hourlyKey (r : Record) : String × Option Nat × Option Nat :=
  (projectOf r.filename, hourlyDate r, hourlyHour r)

/-- The output row of one hourly key. -/
def hourlyBuild (rs : List Record) (P : List PriceRow)
    (k : String × Option Nat × Option Nat) : HourlyRow :=
  let g := (usageFilter rs).filter (fun r => decide (hourlyKey r = k))
  { project_id := k.1
    time_bucket := k.2.1
    hour_of_day := k.2.2
    total_cost_usd := roundTo 4 (sumQ g (weeklyCostExpr P))
    input_tokens := sumN g (fun r => n0 (iTok r))
    output_tokens := sumN g (fun r => n0 (oTok r))
    total_tokens :=
      sumN g (fun r => n0 (iTok r)) + sumN g (fun r => n0 (oTok r))
    session_count := distinctCount (g.map (fun r => fileStem r.filename))
    event_count := g.length }

/-- The hourly aggregation query: usage-bearing records grouped by
`(project_id, date, hour)` with the family-joined cost sum. -/
def hourlyRows (rs : List Record) (P : List PriceRow) : List HourlyRow :=
  (keysOf ((usageFilter rs).map hourlyKey)).map (hourlyBuild rs P)

/-! ## The grand-total summary query with subagent breakdown

A single output row over all usage-bearing records.  `SUM` skips SQL
`NULL` operands, so sums over `CASE WHEN c THEN x END` are modelled as
sums of the present values (`List.filterMap`) over the rows satisfying
`c`; in `pd.input_tokens + pd.output_tokens` the addition itself is
`NULL` whenever either operand is. -/

/-- Sum over the non-`NULL` values of a nullable measure. -/
def sumOptN (l : List α) (f : α → Option Nat) : Nat :=
  (l.filterMap f).sum

/-- `pd.input_tokens + pd.output_tokens`: `NULL` when either operand
is absent. -/
def pairTok (r : Record) : Option Nat :=
  match iTok r, oTok r with
  | some a, some b => some (a + b)
  | _, _ => none

/-- The single output row of the summary query. -/
structure SummaryRow where
  total_projects : Nat
  total_events : Nat
  total_input_tokens : Nat
  total_cache_5m_tokens : Nat
  total_cache_read_tokens : Nat
  total_output_tokens : Nat
  main_agent_events : Nat
  subagent_events : Nat
  main_agent_input_tokens : Nat
  main_agent_output_tokens : Nat
  subagent_input_tokens : Nat
  subagent_output_tokens : Nat
  subagent_token_pct : Option Rat
  total_cost_base_input : Rat
  total_cost_cache_writes : Rat
  total_cost_cache_reads : Rat
  total_cost_output : Rat
  grand_total_cost_usd : Rat
  deriving DecidableEq, Repr

/-- The single summary row from the usage-bearing event set `evs` and
its main-agent / subagent partition.  Note the cost columns: the
cache-write figure prices only the 5-minute ephemeral tokens, and the
grand total adds the base-input, 5-minute-write, cache-read and output
sums — the source carries no 1-hour-write term here. -/
def summaryRowOf (P : List PriceRow) (evs main side : List Record) :
    SummaryRow :=
  { total_projects := distinctCount (evs.map (fun r => projectOf r.filename))
    total_events := evs.length
    total_input_tokens := sumN evs (fun r => n0 (iTok r))
    total_cache_5m_tokens := sumN evs (fun r => n0 (e5Tok r))
    total_cache_read_tokens := sumN evs (fun r => n0 (crTok r))
    total_output_tokens := sumN evs (fun r => n0 (oTok r))
    main_agent_events := main.length
    subagent_events := side.length
    main_agent_input_tokens := sumOptN main iTok
    main_agent_output_tokens := sumOptN main oTok
    subagent_input_tokens := sumOptN side iTok
    subagent_output_tokens := sumOptN side oTok
    subagent_token_pct :=
      if sumOptN evs pairTok = 0 then none
      else some (roundTo 1 (100 * (sumOptN side pairTok : Rat) /
        (sumOptN evs pairTok : Rat)))
    total_cost_base_input := roundTo 2 (sumQ evs (costBase P))
    total_cost_cache_writes := roundTo 2 (sumQ evs (cost5m P))
    total_cost_cache_reads := roundTo 2 (sumQ evs (costRead P))
    total_cost_output := roundTo 2 (sumQ evs (costOut P))
    grand_total_cost_usd :=
      roundTo 2 (sumQ evs (costBase P) + sumQ evs (cost5m P) +
        sumQ evs (costRead P) + sumQ evs (costOut P)) }

/-- The summary query with subagent breakdown. -/
def summaryView (rs : List Record) (P : List PriceRow) : SummaryRow :=
  summaryRowOf P (usageFilter rs)
    ((usageFilter rs).filter (fun r => !sidechainOf r))
    ((usageFilter rs).filter (fun r => sidechainOf r))

/-! ## The top-3-projects query (Top Projects SQL)

Pass one ranks projects by unrounded total cost over the window and
keeps three (`ORDER BY total_cost DESC LIMIT 3`); pass two re-groups
the selected projects' events by `(project_id, week)`. -/

/-- Insert into a cost-descending list (stable on ties). -/
def insertDesc (x : String × Rat) :
    List (String × Rat) → List (String × Rat)
  | [] => [x]
  | y :: t => if y.2 < x.2 then x :: y :: t else y :: insertDesc x t

/-- Sort project/cost pairs by cost descending. -/
def sortDesc (l : List (String × Rat)) : List (String × Rat) :=
  l.foldr insertDesc []

/-- Pass one: the (up to) three project ids with the largest unrounded
total cost. -/
def topProjects (rs : List Record) (P : List PriceRow) : List String :=
  let evs := usageFilter rs
  let projs := keysOf (evs.map (fun r => projectOf r.filename))
  let costs := projs.map fun p =>
    (p, sumQ (evs.filter (fun r => decide (projectOf r.filename = p)))
      (weeklyCostExpr P))
  ((sortDesc costs).take 3).map Prod.fst

/-- One output row of the top-projects detail pass. -/
structure TopWeeklyRow where
  project_id : String
  time_bucket : Option Nat
  cost_usd : Rat
  input_tokens : Nat
  output_tokens : Nat
  total_tokens : Nat
  session_count : Nat
  event_count : Nat
  cost_per_session : Option Rat
  deriving DecidableEq, Repr

/-- The `(project_id, week)` key of the detail pass. -/
def topKey (r : Record) : String × Option Nat :=
  (projectOf r.filename, weekBucket r)

/-- `parsed_data INNER JOIN top_projects`: the usage-bearing records of
the selected projects. -/
def topJoined (rs : List Record) (P : List PriceRow) : List Record :=
  (usageFilter rs).filter
    (fun r => decide (projectOf r.filename ∈ topProjects rs P))

/-- The output row of one `(project, week)` key of the detail pass. -/
def topBuild (rs : List Record) (P : List PriceRow)
    (k : String × Option Nat) : TopWeeklyRow :=
  let g := (topJoined rs P).filter (fun r => decide (topKey r = k))
  let cost := roundTo 4 (sumQ g (weeklyCostExpr P))
  let sc := distinctCount (g.map (fun r => fileStem r.filename))
  { project_id := k.1
    time_bucket := k.2
    cost_usd := cost
    input_tokens := sumN g (fun r => n0 (iTok r))
    output_tokens := sumN g (fun r => n0 (oTok r))
    total_tokens :=
      sumN g (fun r => n0 (iTok r)) + sumN g (fun r => n0 (oTok r))
    session_count := sc
    event_count := g.length
    cost_per_session :=
      if sc = 0 then none else some (roundTo 4 (cost / (sc : Rat))) }

/-- Pass two: weekly aggregates of the events of the selected projects
only (`INNER JOIN top_projects`). -/
def topWeeklyRows (rs : List Record) (P : List PriceRow) :
    List TopWeeklyRow :=
  (keysOf ((topJoined rs P).map topKey)).map (topBuild rs P)

/-! ## The sessions-list query (Sessions List SQL)

`all_events` keeps every record whose `timestamp` field is present and
derives a session id from the file path, falling back to the record's
own `sessionId` for legacy `agent-*.jsonl` transcripts. -/

/-- The three-way `CASE` deriving a session id from a file path and the
record's `sessionId`. -/
def sessionIdOf (r : Record) : Option String :=
  if isSubagentsPath r.filename then some (newStyleSession r.filename)
  else if startsWithTok (fileStem r.filename) "agent-" then r.sessionId
  else some (fileStem r.filename)

/-- The `CASE` flagging subagent transcript files (both conventions). -/
def isSubagentFile (fn : String) : Bool :=
  isSubagentsPath fn || startsWithTok (fileStem fn) "agent-"

/-- `WHERE timestamp IS NOT NULL` of `all_events`. -/
def allEventsOf (rs : List Record) : List Record := rs.filter tsPresent

/-- One cost term of `session_costs`:
`COALESCE((tok / 1000000.0) * price, 0)` after the model-id left join —
`NULL` (hence 0) when the join misses or the token field is absent. -/
def scComp (p : Option PriceRow) (tok : Option Nat)
    (f : PriceRow → Rat) : Rat :=
  match p with
  | none => 0
  | some pr =>
      match tok with
      | none => 0
      | some t => (t : Rat) / 1000000 * f pr

/-- The per-event cost expression of `session_costs` (model-id join). -/
def sessionCostExpr (P : List PriceRow) (r : Record) : Rat :=
  let p := modelPrice P r.model
  scComp p (iTok r) (·.base_input_price) +
    scComp p (e5Tok r) (·.cache_5m_write_price) +
    scComp p (e1Tok r) (·.cache_1h_write_price) +
    scComp p (crTok r) (·.cache_read_price) +
    scComp p (oTok r) (·.output_price)

/-- Minimum of a list of strings (`MIN` over non-null values). -/
def minStr : List String → Option String
  | [] => none
  | s :: t =>
      match minStr t with
      | none => some s
      | some a => some (if s < a then s else a)

/-- Minimum of a list of naturals (`MIN` over non-null values). -/
def minNat : List Nat → Option Nat
  | [] => none
  | s :: t =>
      match minNat t with
      | none => some s
      | some a => some (min s a)

/-- Maximum of a list of naturals (`MAX` over non-null values). -/
def maxNat : List Nat → Option Nat
  | [] => none
  | s :: t =>
      match maxNat t with
      | none => some s
      | some a => some (max s a)

/-- One output row of the sessions-list query. -/
structure SessionRow where
  project_id : String
  session_id : Option String
  first_timestamp : Option Nat
  last_timestamp : Option Nat
  event_count : Nat
  subagent_count : Nat
  total_input_tokens : Nat
  total_output_tokens : Nat
  total_cost_usd : Rat
  filepath : Option String
  deriving DecidableEq, Repr

/-- The sessions-list query: `session_stats` grouped by
`(project_id, session_id)` left-joined to `session_costs`, keeping the
groups with a session id and a main (non-subagent) file.
(`WHERE s.project_id IS NOT NULL` of the source is vacuous because
`regexp_extract` yields `''`, never `NULL`.) -/
def sessionKey (r : Record) : String × Option String :=
  (projectOf r.filename, sessionIdOf r)

/-- The rows entering `session_stats`. -/
def sessionStatsEvents (rs : List Record) : List Record :=
  (allEventsOf rs).filter (fun r => (sessionIdOf r).isSome)

/-- The rows entering `usage_events` / `session_costs`. -/
def sessionUsageEvents (rs : List Record) : List Record :=
  (allEventsOf rs).filter (fun r => (iTok r).isSome || (oTok r).isSome)

/-- One `session_stats ⟕ session_costs` output row from the stats
group `g` and the usage group `c` of a `(project, session)` key. -/
def sessionRowOf (P : List PriceRow) (k : String × Option String)
    (g c : List Record) : SessionRow :=
  { project_id := k.1
    session_id := k.2
    first_timestamp := minNat (g.filterMap tsParsed)
    last_timestamp := maxNat (g.filterMap tsParsed)
    event_count := g.length
    subagent_count := distinctCount (g.filterMap (·.agentId))
    total_input_tokens := sumN c (fun r => n0 (iTok r))
    total_output_tokens := sumN c (fun r => n0 (oTok r))
    total_cost_usd :=
      roundTo 4 (if c.isEmpty then 0 else sumQ c (sessionCostExpr P))
    filepath :=
      minStr ((g.filter (fun r => !isSubagentFile r.filename)).map
        (·.filename)) }

/-- The output row of one `(project, session)` key, before the final
`WHERE`. -/
def sessionBuild (rs : List Record) (P : List PriceRow)
    (k : String × Option String) : SessionRow :=
  sessionRowOf P k
    ((sessionStatsEvents rs).filter (fun r => decide (sessionKey r = k)))
    ((sessionUsageEvents rs).filter (fun r => decide (sessionKey r = k)))

/-- The final `WHERE` of the sessions-list query. -/
def sessionKeep (row : SessionRow) : Bool :=
  row.session_id.isSome && row.filepath.isSome

def sessionsRows (rs : List Record) (P : List PriceRow) :
    List SessionRow :=
  (((keysOf ((sessionStatsEvents rs).map sessionKey)).map
    (sessionBuild rs P)).filter sessionKeep)

/-! ## The daily drill-down query (Daily Detail SQL)

Reports, per `(project, date_local, date_utc, model)` group, both the
UTC calendar day and the Melbourne calendar day of the events, with a
mismatch marker; the `CASE` comparison `date_local != date_utc` is not
true when either side is `NULL`. -/

/-- Melbourne-local calendar day of a record. -/
def dateLocalOf (r : Record) : Option Nat :=
  (tsParsed r).map fun t => dayOf (toMelbourne t)

/-- UTC calendar day of a record. -/
def dateUtcOf (r : Record) : Option Nat := (tsParsed r).map dayOf

/-- The `timezone_status` marker of a drill-down group. -/
def tzStatus (dl du : Option Nat) : String :=
  match dl, du with
  | some a, some b => if a ≠ b then "TIMEZONE_MISMATCH" else "ALIGNED"
  | _, _ => "ALIGNED"

/-- One output row of the daily drill-down query. -/
structure DailyDetailRow where
  project_id : String
  date_local : Option Nat
  date_utc : Option Nat
  timezone_status : String
  session_count : Nat
  event_count : Nat
  model_id : Option String
  total_cost_usd : Rat
  total_input_tokens : Nat
  total_output_tokens : Nat
  deriving DecidableEq, Repr

/-- The per-event cost expression of the daily drill-down (model-id
left join with `COALESCE(price, 0)`). -/
def ddCostExpr (P : List PriceRow) (r : Record) : Rat :=
  let p := modelPrice P r.model
  compCost p (iTok r) (·.base_input_price) +
    compCost p (e5Tok r) (·.cache_5m_write_price) +
    compCost p (e1Tok r) (·.cache_1h_write_price) +
    compCost p (crTok r) (·.cache_read_price) +
    compCost p (oTok r) (·.output_price)

/-- The `GROUP BY` key of the daily drill-down. -/
def ddKey (r : Record) :
    String × Option Nat × Option Nat × Option String :=
  (projectOf r.filename, dateLocalOf r, dateUtcOf r, r.model)

/-- The project-filtered event set of the daily drill-down. -/
def ddEvents (rs : List Record) (proj : String) : List Record :=
  (usageFilter rs).filter (fun r => decide (projectOf r.filename = proj))

/-- The output row of one daily drill-down key. -/
def ddBuild (rs : List Record) (P : List PriceRow) (proj : String)
    (k : String × Option Nat × Option Nat × Option String) :
    DailyDetailRow :=
  let g := (ddEvents rs proj).filter (fun r => decide (ddKey r = k))
  { project_id := k.1
    date_local := k.2.1
    date_utc := k.2.2.1
    timezone_status := tzStatus k.2.1 k.2.2.1
    session_count := distinctCount (g.map (fun r => fileStem r.filename))
    event_count := g.length
    model_id := k.2.2.2
    total_cost_usd := roundTo 4 (sumQ g (ddCostExpr P))
    total_input_tokens := sumN g (fun r => n0 (iTok r))
    total_output_tokens := sumN g (fun r => n0 (oTok r)) }

/-- The daily drill-down query for one project. -/
def dailyDetailRows (rs : List Record) (P : List PriceRow)
    (proj : String) : List DailyDetailRow :=
  (keysOf ((ddEvents rs proj).map ddKey)).map (ddBuild rs P proj)

/-! ## The schema-timeline query (Schema Timeline SQL)

One marker per day per JSON path; the day of a record is its own
timestamp day when the timestamp parses, else the source file's
modification day supplied by the external `file_mtimes` lookup.  The
embedding carries the `UNION ALL` branches for the record fields
modelled here; the source's remaining branches have the identical
shape for fields this embedding does not carry. -/

/-- `LEFT JOIN file_mtimes fm ON j.filename = fm.filename`: the
modification day of a file. -/
def mtimeOf (mt : List (String × Nat)) (fn : String) : Option Nat :=
  (mt.find? (fun x => decide (x.1 = fn))).map (·.2)

/-- `COALESCE(day(TRY_CAST(timestamp)), fm.mtime_date)`. -/
def eventDateOf (mt : List (String × Nat)) (r : Record) : Option Nat :=
  match (tsParsed r).map dayOf with
  | some d => some d
  | none => mtimeOf mt r.filename

/-- One unpivoted row of `path_events`. -/
structure PathEvent where
  json_path : String
  event_date : Option Nat
  version : Option String
  has_record_timestamp : Bool
  deriving DecidableEq, Repr

/-- The json paths present on a record (the `WHERE has_...` guards of
the `UNION ALL` branches, for the fields this embedding carries). -/
def presentPaths (r : Record) : List String :=
  (if r.typ.isSome then ["type"] else []) ++
  (if r.timestamp.isSome then ["timestamp"] else []) ++
  (if r.uuid.isSome then ["uuid"] else []) ++
  (if r.parentUuid.isSome then ["parentUuid"] else []) ++
  (if r.sessionId.isSome then ["sessionId"] else []) ++
  (if r.version.isSome then ["version"] else []) ++
  (if r.agentId.isSome then ["agentId"] else []) ++
  (if r.isSidechain.isSome then ["isSidechain"] else []) ++
  (if r.model.isSome then ["message.model"] else []) ++
  (if r.usage.isSome then ["message.usage"] else [])

/-- The `UNION ALL` unpivot: one `PathEvent` per present field path of
a record, each carrying the record's day, version and
timestamp-presence marker. -/
def pathEvents (mt : List (String × Nat)) (r : Record) :
    List PathEvent :=
  (presentPaths r).map fun p =>
    { json_path := p
      event_date := eventDateOf mt r
      version := r.version
      has_record_timestamp := tsPresent r }

/-- `MODE(version)`: the most frequent non-null version, first-seen
order breaking ties. -/
def modeOf (l : List (Option String)) : Option String :=
  let vs := l.filterMap id
  ((keysOf vs).foldl (fun acc c =>
    let n := (vs.filter (fun x => decide (x = c))).length
    match acc with
    | none => some (c, n)
    | some (b, m) => if m < n then some (c, n) else some (b, m))
    none).map (·.1)

/-- One output row of the schema-timeline query. -/
structure SchemaDailyRow where
  event_date : Option Nat
  version : Option String
  json_path : String
  first_seen : Option Nat
  has_record_timestamp : Bool
  event_count : Nat
  deriving DecidableEq, Repr

/-- The schema-timeline query: `path_events` with a non-null day,
grouped by `(json_path, event_date)`, and each path's first-seen day
joined back on. -/
def schemaPathEvents (rs : List Record) (mt : List (String × Nat)) :
    List PathEvent :=
  ((rs.map (pathEvents mt)).flatten).filter (·.event_date.isSome)

/-- The `(json_path, event_date)` key of the schema-timeline group. -/
def schemaKey (e : PathEvent) : String × Option Nat :=
  (e.json_path, e.event_date)

/-- The output row of one schema-timeline key. -/
def schemaBuild (rs : List Record) (mt : List (String × Nat))
    (k : String × Option Nat) : SchemaDailyRow :=
  let pes := schemaPathEvents rs mt
  let g := pes.filter (fun e => decide (schemaKey e = k))
  { event_date := k.2
    version := modeOf (g.map (·.version))
    json_path := k.1
    first_seen :=
      minNat ((pes.filter (fun e => decide (e.json_path = k.1))).filterMap
        (·.event_date))
    has_record_timestamp := g.any (·.has_record_timestamp)
    event_count := g.length }

def schemaDaily (rs : List Record) (mt : List (String × Nat)) :
    List SchemaDailyRow :=
  (keysOf ((schemaPathEvents rs mt).map schemaKey)).map (schemaBuild rs mt)

/-! ## The session-events query (Session Events SQL)

Returns every event of a session glob that has a `timestamp` and a
`type`; the agent columns are emitted as constants (`NULL AS agent_id`,
`false AS is_sidechain`, `NULL AS agent_slug`), and only the
`/subagents/` path test marks subagent transcript files. -/

/-- One output row of the session-events query. -/
structure SessionEventRow where
  uuid : Option String
  parent_uuid : Option String
  event_type : Option String
  timestamp : Option Nat
  timestamp_local : Option Nat
  session_id : Option String
  agent_id : Option String
  is_sidechain : Bool
  agent_slug : Option String
  model_id : Option String
  input_tokens : Nat
  output_tokens : Nat
  cache_read_tokens : Nat
  filepath : String
  is_subagent_file : Bool
  source_file : String
  deriving DecidableEq, Repr

/-- The session-events query (output ordering not modelled). -/
def sessionEvents (rs : List Record) : List SessionEventRow :=
  (rs.filter (fun r => tsPresent r && r.typ.isSome)).map fun r =>
    { uuid := r.uuid
      parent_uuid := r.parentUuid
      event_type := r.typ
      timestamp := tsParsed r
      timestamp_local := (tsParsed r).map toMelbourne
      session_id := r.sessionId
      agent_id := none
      is_sidechain := false
      agent_slug := none
      model_id := r.model
      input_tokens := n0 (iTok r)
      output_tokens := n0 (oTok r)
      cache_read_tokens := n0 (crTok r)
      filepath := r.filename
      is_subagent_file := isSubagentsPath r.filename
      source_file := fileStem r.filename }

end ClaudeSessions

namespace ClaudeSessions

/-! ## Concrete fixtures used by the witnesses and counterexamples -/

/-- A usage block given as six optional token counts, in source column
order. -/
def mkUsage (i cc cr e5 e1 o : Option Nat) : Usage := ⟨i, cc, cr, e5, e1, o⟩

/-- A pricing row for the `sonnet` family at the prices of the
end-to-end scenario (base input $3, output $15 per million tokens). -/
def sonnetPricing : PriceRow :=
  ⟨"sonnet", "claude-sonnet-4-5", 3, 375 / 100, 6, 3 / 10, 15⟩

/-- 2025-01-06T10:00:00Z, a Monday. -/
def tMonday : Nat := daysFromCivil 2025 1 6 * 1440 + 600

/-- First scenario record: one million input tokens. -/
def c1rec1 : Record :=
  { filename := "projects/p1/s1.jsonl", sessionId := some "s1",
    typ := some "assistant", timestamp := some (some tMonday),
    model := some "claude-sonnet-4-5",
    usage := some (mkUsage (some 1000000) none none none none none) }

/-- Second scenario record: half a million output tokens, same
session. -/
def c1rec2 : Record :=
  { filename := "projects/p1/s1.jsonl", sessionId := some "s1",
    typ := some "assistant", timestamp := some (some tMonday),
    model := some "claude-sonnet-4-5",
    usage := some (mkUsage none none none none none (some 500000)) }

/-! ## Projection lemmas for the sessions-list builder -/

theorem sessionBuild_project_id (rs : List Record) (P : List PriceRow)
    (k : String × Option String) :
    (sessionBuild rs P k).project_id = k.1 := rfl

theorem sessionBuild_session_id (rs : List Record) (P : List PriceRow)
    (k : String × Option String) :
    (sessionBuild rs P k).session_id = k.2 := rfl

theorem sessionBuild_event_count (rs : List Record) (P : List PriceRow)
    (k : String × Option String) :
    (sessionBuild rs P k).event_count =
      ((sessionStatsEvents rs).filter
        (fun r => decide (sessionKey r = k))).length := rfl

theorem sessionBuild_subagent_count (rs : List Record)
    (P : List PriceRow) (k : String × Option String) :
    (sessionBuild rs P k).subagent_count =
      distinctCount (((sessionStatsEvents rs).filter
        (fun r => decide (sessionKey r = k))).filterMap (·.agentId)) := rfl

theorem sessionBuild_filepath (rs : List Record) (P : List PriceRow)
    (k : String × Option String) :
    (sessionBuild rs P k).filepath =
      minStr ((((sessionStatsEvents rs).filter
        (fun r => decide (sessionKey r = k))).filter
          (fun r => !isSubagentFile r.filename)).map (·.filename)) := rfl

/-! ## Congruence helpers for the grouped views -/

/-- Two group-to-row builders that agree on a projection give equal
projected row lists. -/
theorem map_proj_eq {α β γ : Type _} (f g : α → β) (proj : β → γ)
    (l : List α) (h : ∀ k, proj (f k) = proj (g k)) :
    (l.map f).map proj = (l.map g).map proj := by
  induction l with
  | nil => rfl
  | cons a t ih =>
      simp only [List.map_cons]
      rw [h a, ih]

/-- As `map_proj_eq`, through a row filter on which the two builders
also agree. -/
theorem map_proj_filter_eq {α β γ : Type _} (f g : α → β) (q : β → Bool)
    (proj : β → γ) (l : List α) (hq : ∀ k, q (f k) = q (g k))
    (h : ∀ k, proj (f k) = proj (g k)) :
    (((l.map f).filter q).map proj) = (((l.map g).filter q).map proj) := by
  induction l with
  | nil => rfl
  | cons a t ih =>
      by_cases hfa : q (f a) = true
      · have hga : q (g a) = true := hq a ▸ hfa
        rw [List.map_cons, List.map_cons, List.filter_cons_of_pos hfa,
          List.filter_cons_of_pos hga, List.map_cons, List.map_cons,
          h a, ih]
      · have hga : ¬q (g a) = true := by
          rw [hq a] at hfa
          exact hfa
        rw [List.map_cons, List.map_cons, List.filter_cons_of_neg hfa,
          List.filter_cons_of_neg hga, ih]

/-! ## C1 — the end-to-end scenario -/

unseal Rat.mul Rat.add Rat.sub Rat.inv in
/-- C1: two records in project `p1` with model `claude-sonnet-4-5` in
the same session — one with 1,000,000 input tokens and one with 500,000
output tokens — against a pricing table giving the sonnet family base
input price 3 and output price 15 USD per million tokens, produce a
single weekly aggregation row with total cost $10.50, `event_count = 2`
and `session_count = 1`. -/
theorem c1_end_to_end_scenario :
    (weeklyRows [c1rec1, c1rec2] [sonnetPricing]).map (fun r =>
      (r.project_id, r.total_cost_usd, r.event_count, r.session_count)) =
    [("p1", (21 : Rat) / 2, 2, 1)] := by
  decide

/-! ## C2 — left-join completeness for unpriced models -/

/-- A record whose model matches no pricing row (neither by family nor
by exact model id). -/
def c2rec : Record :=
  { filename := "projects/p1/s1.jsonl", sessionId := some "s1",
    typ := some "assistant", timestamp := some (some tMonday),
    model := some "mystery-model-1",
    usage := some (mkUsage (some 7) none none none none (some 9)) }

/-- C2: an event whose model joins no pricing row contributes exactly 0
to every cost component and total, and the event/session counts of the
weekly, hourly and sessions-list views never depend on the pricing
table at all — emptying the pricing table leaves every count column
unchanged, so a missing pricing row can never drop an event from any
count. -/
theorem c2_left_join_completeness (rs : List Record) (P : List PriceRow)
    (r : Record)
    (hf : famPrice P (modelFamily r.model) = none)
    (hm : modelPrice P r.model = none) :
    (weeklyCostExpr P r = 0 ∧ sessionCostExpr P r = 0 ∧
      costBase P r = 0 ∧ cost5m P r = 0 ∧ cost1h P r = 0 ∧
      costRead P r = 0 ∧ costOut P r = 0) ∧
    ((weeklyRows rs P).map fun w =>
        (w.project_id, w.model_id, w.time_bucket, w.session_count,
          w.event_count)) =
      ((weeklyRows rs []).map fun w =>
        (w.project_id, w.model_id, w.time_bucket, w.session_count,
          w.event_count)) ∧
    ((hourlyRows rs P).map fun w =>
        (w.project_id, w.time_bucket, w.hour_of_day, w.session_count,
          w.event_count)) =
      ((hourlyRows rs []).map fun w =>
        (w.project_id, w.time_bucket, w.hour_of_day, w.session_count,
          w.event_count)) ∧
    ((sessionsRows rs P).map fun w =>
        (w.project_id, w.session_id, w.event_count, w.subagent_count)) =
      ((sessionsRows rs []).map fun w =>
        (w.project_id, w.session_id, w.event_count, w.subagent_count)) := by
  refine ⟨⟨?_, ?_, ?_, ?_, ?_, ?_, ?_⟩, ?_, ?_, ?_⟩
  · simp [weeklyCostExpr, costBase, cost5m, cost1h, costRead, costOut,
      compCost, famJoin, hf, prF]
  · simp [sessionCostExpr, hm, scComp]
  · simp [costBase, compCost, famJoin, hf, prF]
  · simp [cost5m, compCost, famJoin, hf, prF]
  · simp [cost1h, compCost, famJoin, hf, prF]
  · simp [costRead, compCost, famJoin, hf, prF]
  · simp [costOut, compCost, famJoin, hf, prF]
  · exact map_proj_eq (weeklyBuild rs P) (weeklyBuild rs []) _
      (weeklyKeys rs) (fun k => rfl)
  · exact map_proj_eq (hourlyBuild rs P) (hourlyBuild rs []) _
      (keysOf ((usageFilter rs).map hourlyKey)) (fun k => rfl)
  · refine map_proj_filter_eq (sessionBuild rs P) (sessionBuild rs [])
      sessionKeep _ (keysOf ((sessionStatsEvents rs).map sessionKey))
      (fun k => ?_) (fun k => ?_)
    · unfold sessionKeep
      rw [sessionBuild_session_id, sessionBuild_session_id,
        sessionBuild_filepath, sessionBuild_filepath]
    · rw [sessionBuild_project_id, sessionBuild_project_id,
        sessionBuild_session_id, sessionBuild_session_id,
        sessionBuild_event_count, sessionBuild_event_count,
        sessionBuild_subagent_count, sessionBuild_subagent_count]

unseal Rat.mul Rat.add Rat.sub Rat.inv in
/-- Witness for C2 at a concrete unpriced record: the hypotheses hold
for `c2rec` against the sonnet-only pricing table, and every cost
contribution of `c2rec` is zero. -/
theorem c2_witness :
    weeklyCostExpr [sonnetPricing] c2rec = 0 ∧
      sessionCostExpr [sonnetPricing] c2rec = 0 ∧
      costBase [sonnetPricing] c2rec = 0 ∧ cost5m [sonnetPricing] c2rec = 0 ∧
      cost1h [sonnetPricing] c2rec = 0 ∧ costRead [sonnetPricing] c2rec = 0 ∧
      costOut [sonnetPricing] c2rec = 0 :=
  (c2_left_join_completeness [c1rec1] [sonnetPricing] c2rec (by decide)
    (by decide)).1

/-! ## C3 — zero-coalescing of missing token fields -/

/-- Replace every absent token field of a usage block by an explicit
zero. -/
def zeroUsage (u : Usage) : Usage :=
  ⟨some (n0 u.input_tokens), some (n0 u.cache_creation_input_tokens),
   some (n0 u.cache_read_input_tokens),
   some (n0 u.ephemeral_5m_input_tokens),
   some (n0 u.ephemeral_1h_input_tokens), some (n0 u.output_tokens)⟩

/-- Replace the absent token fields of a record's usage block (if any)
by explicit zeros; every other field is untouched. -/
def zeroFill (r : Record) : Record :=
  { r with usage := r.usage.map zeroUsage }

theorem weeklyKey_zeroFill (r : Record) :
    weeklyKey (zeroFill r) = weeklyKey r := rfl

theorem usage_isSome_zeroFill (r : Record) :
    (zeroFill r).usage.isSome = r.usage.isSome := by
  cases r with
  | mk fn sid aid isc slug typ ts ver uu pu mo us => cases us <;> rfl

theorem n0_iTok_zeroFill (r : Record) :
    n0 (iTok (zeroFill r)) = n0 (iTok r) := by
  cases r with
  | mk fn sid aid isc slug typ ts ver uu pu mo us => cases us <;> rfl

theorem n0_ccTok_zeroFill (r : Record) :
    n0 (ccTok (zeroFill r)) = n0 (ccTok r) := by
  cases r with
  | mk fn sid aid isc slug typ ts ver uu pu mo us => cases us <;> rfl

theorem n0_crTok_zeroFill (r : Record) :
    n0 (crTok (zeroFill r)) = n0 (crTok r) := by
  cases r with
  | mk fn sid aid isc slug typ ts ver uu pu mo us => cases us <;> rfl

theorem n0_e5Tok_zeroFill (r : Record) :
    n0 (e5Tok (zeroFill r)) = n0 (e5Tok r) := by
  cases r with
  | mk fn sid aid isc slug typ ts ver uu pu mo us => cases us <;> rfl

theorem n0_e1Tok_zeroFill (r : Record) :
    n0 (e1Tok (zeroFill r)) = n0 (e1Tok r) := by
  cases r with
  | mk fn sid aid isc slug typ ts ver uu pu mo us => cases us <;> rfl

theorem n0_oTok_zeroFill (r : Record) :
    n0 (oTok (zeroFill r)) = n0 (oTok r) := by
  cases r with
  | mk fn sid aid isc slug typ ts ver uu pu mo us => cases us <;> rfl

theorem costBase_zeroFill (P : List PriceRow) (r : Record) :
    costBase P (zeroFill r) = costBase P r := by
  unfold costBase compCost
  rw [n0_iTok_zeroFill]
  rfl

theorem cost5m_zeroFill (P : List PriceRow) (r : Record) :
    cost5m P (zeroFill r) = cost5m P r := by
  unfold cost5m compCost
  rw [n0_e5Tok_zeroFill]
  rfl

theorem cost1h_zeroFill (P : List PriceRow) (r : Record) :
    cost1h P (zeroFill r) = cost1h P r := by
  unfold cost1h compCost
  rw [n0_e1Tok_zeroFill]
  rfl

theorem costRead_zeroFill (P : List PriceRow) (r : Record) :
    costRead P (zeroFill r) = costRead P r := by
  unfold costRead compCost
  rw [n0_crTok_zeroFill]
  rfl

theorem costOut_zeroFill (P : List PriceRow) (r : Record) :
    costOut P (zeroFill r) = costOut P r := by
  unfold costOut compCost
  rw [n0_oTok_zeroFill]
  rfl

theorem weeklyCostExpr_zeroFill (P : List PriceRow) (r : Record) :
    weeklyCostExpr P (zeroFill r) = weeklyCostExpr P r := by
  unfold weeklyCostExpr
  rw [costBase_zeroFill, cost5m_zeroFill, cost1h_zeroFill,
    costRead_zeroFill, costOut_zeroFill]

/-- A same-type map that preserves a predicate commutes with
`filter`. -/
theorem filter_map_comm {α : Type _} (f : α → α) (p : α → Bool)
    (l : List α) (hp : ∀ a, p (f a) = p a) :
    (l.map f).filter p = (l.filter p).map f := by
  induction l with
  | nil => rfl
  | cons a t ih =>
      by_cases h : p a = true
      · rw [List.map_cons, List.filter_cons_of_pos (by rw [hp a]; exact h),
          List.filter_cons_of_pos h, List.map_cons, ih]
      · rw [List.map_cons, List.filter_cons_of_neg (by rw [hp a]; exact h),
          List.filter_cons_of_neg h, ih]

theorem sumQ_map {α : Type _} (l : List α) (f : α → α) (h : α → Rat) :
    sumQ (l.map f) h = sumQ l (fun a => h (f a)) := by
  unfold sumQ
  rw [List.map_map]
  rfl

theorem sumN_map {α : Type _} (l : List α) (f : α → α) (h : α → Nat) :
    sumN (l.map f) h = sumN l (fun a => h (f a)) := by
  unfold sumN
  rw [List.map_map]
  rfl

theorem sumQ_congr {α : Type _} (l : List α) (f g : α → Rat)
    (h : ∀ a ∈ l, f a = g a) : sumQ l f = sumQ l g := by
  unfold sumQ
  rw [List.map_congr_left h]

theorem sumN_congr {α : Type _} (l : List α) (f g : α → Nat)
    (h : ∀ a ∈ l, f a = g a) : sumN l f = sumN l g := by
  unfold sumN
  rw [List.map_congr_left h]

/-- Summing the present values of a nullable measure is summing its
zero-coalesced version. -/
theorem sumOptN_eq {α : Type _} (l : List α) (f : α → Option Nat) :
    sumOptN l f = sumN l (fun a => n0 (f a)) := by
  induction l with
  | nil => rfl
  | cons a t ih =>
      unfold sumOptN sumN at ih ⊢
      cases h : f a <;>
        simp [List.filterMap_cons, h, n0, ih]

theorem weeklyRowOf_map_zeroFill (P : List PriceRow)
    (k : String × Option String × Option Nat × String)
    (g : List Record) :
    weeklyRowOf P k (g.map zeroFill) = weeklyRowOf P k g := by
  unfold weeklyRowOf
  simp only [WeeklyRow.mk.injEq]
  refine ⟨trivial, trivial, trivial, ?_, ?_, List.length_map g zeroFill,
    ?_, ?_, ?_, ?_, ?_, ?_, ?_, ?_, ?_, ?_, ?_, ?_⟩
  · rw [sumQ_map, sumQ_congr _ _ _ (fun a _ => weeklyCostExpr_zeroFill P a)]
  · rw [List.map_map]
    rfl
  · rw [sumN_map, sumN_congr _ _ _ (fun a _ => n0_iTok_zeroFill a)]
  · rw [sumN_map, sumN_congr _ _ _ (fun a _ => n0_ccTok_zeroFill a)]
  · rw [sumN_map, sumN_congr _ _ _ (fun a _ => n0_crTok_zeroFill a)]
  · rw [sumN_map, sumN_congr _ _ _ (fun a _ => n0_e5Tok_zeroFill a)]
  · rw [sumN_map, sumN_congr _ _ _ (fun a _ => n0_e1Tok_zeroFill a)]
  · rw [sumN_map, sumN_congr _ _ _ (fun a _ => n0_oTok_zeroFill a)]
  · rw [sumN_map, sumN_congr _ _ _ (fun a _ => n0_iTok_zeroFill a),
      sumN_map, sumN_congr _ _ _ (fun a _ => n0_ccTok_zeroFill a),
      sumN_map, sumN_congr _ _ _ (fun a _ => n0_crTok_zeroFill a),
      sumN_map, sumN_congr _ _ _ (fun a _ => n0_oTok_zeroFill a)]
  · rw [sumQ_map, sumQ_congr _ _ _ (fun a _ => costBase_zeroFill P a)]
  · rw [sumQ_map, sumQ_congr _ _ _ (fun a _ => cost5m_zeroFill P a)]
  · rw [sumQ_map, sumQ_congr _ _ _ (fun a _ => cost1h_zeroFill P a)]
  · rw [sumQ_map, sumQ_congr _ _ _ (fun a _ => costRead_zeroFill P a)]
  · rw [sumQ_map, sumQ_congr _ _ _ (fun a _ => costOut_zeroFill P a)]

theorem usageFilter_map_zeroFill (rs : List Record) :
    usageFilter (rs.map zeroFill) = (usageFilter rs).map zeroFill := by
  unfold usageFilter
  exact filter_map_comm zeroFill _ rs usage_isSome_zeroFill

theorem weeklyRows_zeroFill (rs : List Record) (P : List PriceRow) :
    weeklyRows (rs.map zeroFill) P = weeklyRows rs P := by
  unfold weeklyRows weeklyKeys weeklyBuild weeklyGroup
  rw [usageFilter_map_zeroFill, List.map_map]
  have hk : (weeklyKey ∘ zeroFill) = weeklyKey := funext fun r => rfl
  rw [hk]
  apply List.map_congr_left
  intro k _
  rw [filter_map_comm zeroFill _ _
    (fun a => by rw [show weeklyKey (zeroFill a) = weeklyKey a from rfl]),
    weeklyRowOf_map_zeroFill]

/-- The summary row with its percentage column erased, to compare all
the other columns at once. -/
def summaryNoPct (s : SummaryRow) : SummaryRow :=
  { s with subagent_token_pct := none }

theorem summaryRowOf_zeroFill_noPct (P : List PriceRow)
    (evs main side : List Record) :
    summaryNoPct (summaryRowOf P (evs.map zeroFill) (main.map zeroFill)
      (side.map zeroFill)) = summaryNoPct (summaryRowOf P evs main side) := by
  unfold summaryNoPct summaryRowOf
  simp only [SummaryRow.mk.injEq]
  refine ⟨?_, List.length_map evs zeroFill, ?_, ?_, ?_, ?_,
    List.length_map main zeroFill, List.length_map side zeroFill,
    ?_, ?_, ?_, ?_, trivial, ?_, ?_, ?_, ?_, ?_⟩
  · rw [List.map_map]
    exact congrArg distinctCount (List.map_congr_left fun a _ => rfl)
  · rw [sumN_map, sumN_congr _ _ _ (fun a _ => n0_iTok_zeroFill a)]
  · rw [sumN_map, sumN_congr _ _ _ (fun a _ => n0_e5Tok_zeroFill a)]
  · rw [sumN_map, sumN_congr _ _ _ (fun a _ => n0_crTok_zeroFill a)]
  · rw [sumN_map, sumN_congr _ _ _ (fun a _ => n0_oTok_zeroFill a)]
  · rw [sumOptN_eq, sumOptN_eq, sumN_map,
      sumN_congr _ _ _ (fun a _ => n0_iTok_zeroFill a)]
  · rw [sumOptN_eq, sumOptN_eq, sumN_map,
      sumN_congr _ _ _ (fun a _ => n0_oTok_zeroFill a)]
  · rw [sumOptN_eq, sumOptN_eq, sumN_map,
      sumN_congr _ _ _ (fun a _ => n0_iTok_zeroFill a)]
  · rw [sumOptN_eq, sumOptN_eq, sumN_map,
      sumN_congr _ _ _ (fun a _ => n0_oTok_zeroFill a)]
  · rw [sumQ_map, sumQ_congr _ _ _ (fun a _ => costBase_zeroFill P a)]
  · rw [sumQ_map, sumQ_congr _ _ _ (fun a _ => cost5m_zeroFill P a)]
  · rw [sumQ_map, sumQ_congr _ _ _ (fun a _ => costRead_zeroFill P a)]
  · rw [sumQ_map, sumQ_congr _ _ _ (fun a _ => costOut_zeroFill P a)]
  · rw [sumQ_map, sumQ_congr _ _ _ (fun a _ => costBase_zeroFill P a),
      sumQ_map, sumQ_congr _ _ _ (fun a _ => cost5m_zeroFill P a),
      sumQ_map, sumQ_congr _ _ _ (fun a _ => costRead_zeroFill P a),
      sumQ_map, sumQ_congr _ _ _ (fun a _ => costOut_zeroFill P a)]

/-- C3 (amended): replacing every absent token field by an explicit
zero leaves the whole weekly aggregation unchanged, and in the summary
view leaves every column except `subagent_token_pct` unchanged — the
percentage column is the exception the claim overlooks, because its
`input + output` pairing drops the present half of a half-missing
pair. -/
theorem c3_zero_coalescing (rs : List Record) (P : List PriceRow) :
    weeklyRows (rs.map zeroFill) P = weeklyRows rs P ∧
    summaryNoPct (summaryView (rs.map zeroFill) P) =
      summaryNoPct (summaryView rs P) := by
  constructor
  · exact weeklyRows_zeroFill rs P
  · unfold summaryView
    rw [usageFilter_map_zeroFill,
      filter_map_comm zeroFill (fun r => !sidechainOf r) _ (fun a => rfl),
      filter_map_comm zeroFill (fun r => sidechainOf r) _ (fun a => rfl),
      summaryRowOf_zeroFill_noPct]

/-- A sidechain record whose usage block has output tokens but no
input-token field. -/
def c3side : Record :=
  { filename := "projects/p1/s1.jsonl", sessionId := some "s1",
    isSidechain := some true, typ := some "assistant",
    timestamp := some (some tMonday), model := some "claude-sonnet-4-5",
    usage := some (mkUsage none none none none none (some 500000)) }

/-- A main-agent record with both token fields present. -/
def c3main : Record :=
  { filename := "projects/p1/s1.jsonl", sessionId := some "s1",
    typ := some "assistant", timestamp := some (some tMonday),
    model := some "claude-sonnet-4-5",
    usage := some (mkUsage (some 1000000) none none none none
      (some 1000000)) }

unseal Rat.mul Rat.add Rat.sub Rat.inv in
/-- C3 counterexample: for a sidechain event missing only its
input-token field, the subagent token percentage is *not* the value
obtained with the missing field replaced by 0 — the source's
un-coalesced `input_tokens + output_tokens` drops the event's present
500,000 output tokens (0% instead of 20%). -/
theorem c3_counterexample :
    (summaryView ([c3side, c3main].map zeroFill) []).subagent_token_pct =
      some 20 ∧
    (summaryView [c3side, c3main] []).subagent_token_pct = some 0 := by
  decide

/-! ## C4 — session collapsing of legacy `agent-*.jsonl` files -/

/-- A legacy delegated-task transcript: file `agent-7.jsonl`, records
carrying `sessionId = "s1"`. -/
def c4agent : Record :=
  { filename := "projects/p1/agent-7.jsonl", sessionId := some "s1",
    typ := some "assistant", timestamp := some (some tMonday),
    model := some "claude-sonnet-4-5",
    usage := some (mkUsage (some 1000) none none none none none) }

/-- The parent session's own transcript file `s1.jsonl`. -/
def c4main : Record :=
  { filename := "projects/p1/s1.jsonl", sessionId := some "s1",
    typ := some "assistant", timestamp := some (some tMonday),
    model := some "claude-sonnet-4-5",
    usage := some (mkUsage (some 2000) none none none none none) }

unseal Rat.mul Rat.add Rat.sub Rat.inv in
/-- C4 counterexample: the weekly aggregation derives its session id
purely from the file name, so the single week bucket holding `s1.jsonl`
and `agent-7.jsonl` (both with `sessionId = "s1"`) counts **two**
distinct sessions — the legacy file is counted under a session named
`agent-7` there, where the claim demands it collapse into `s1`. -/
theorem c4_counterexample :
    fileStem c4agent.filename = "agent-7" ∧
    c4agent.sessionId = some "s1" ∧
    (weeklyRows [c4main, c4agent] []).map (fun r =>
      (r.project_id, r.session_count, r.event_count)) = [("p1", 2, 2)] := by
  refine ⟨by decide, by decide, by decide⟩

/-- C4 (amended): the filename-to-`sessionId` collapsing holds in the
sessions-list view — there any record of an `agent-*.jsonl` file (that
is not a new-style `/subagents/` path) is attributed the session id of
its own `sessionId` field, and the two scenario files yield one session
`s1` with both events; the weekly/hourly/top-N usage views instead
derive the session id from the file name alone (see the
counterexample). -/
theorem c4_session_collapsing (r : Record)
    (h1 : startsWithTok (fileStem r.filename) "agent-" = true)
    (h2 : isSubagentsPath r.filename = false) :
    sessionIdOf r = r.sessionId ∧
    (sessionsRows [c4main, c4agent] []).map (fun x =>
      (x.project_id, x.session_id, x.event_count)) =
      [("p1", some "s1", 2)] := by
  constructor
  · simp [sessionIdOf, h1, h2]
  · decide

/-- Witness for C4 at the legacy scenario file. -/
theorem c4_witness :
    sessionIdOf c4agent = c4agent.sessionId ∧
    (sessionsRows [c4main, c4agent] []).map (fun x =>
      (x.project_id, x.session_id, x.event_count)) =
      [("p1", some "s1", 2)] :=
  c4_session_collapsing c4agent (by decide) (by decide)

/-! ## C5 — the two-pass top-3-projects view -/

theorem topBuild_project_id (rs : List Record) (P : List PriceRow)
    (k : String × Option Nat) : (topBuild rs P k).project_id = k.1 := rfl

theorem topBuild_time_bucket (rs : List Record) (P : List PriceRow)
    (k : String × Option Nat) : (topBuild rs P k).time_bucket = k.2 := rfl

/-- Membership in the distinct key list is membership in the
original. -/
theorem mem_keysOf {α : Type _} [DecidableEq α] (l : List α) (x : α) :
    x ∈ keysOf l ↔ x ∈ l := by
  have h : ∀ (l acc : List α),
      x ∈ l.foldl (fun acc k => if k ∈ acc then acc else acc ++ [k]) acc ↔
        x ∈ acc ∨ x ∈ l := by
    intro l
    induction l with
    | nil => intro acc; simp
    | cons a t ih =>
        intro acc
        rw [List.foldl_cons, ih]
        by_cases hm : a ∈ acc
        · simp only [if_pos hm, List.mem_cons]
          constructor
          · rintro (h | h)
            · exact Or.inl h
            · exact Or.inr (Or.inr h)
          · rintro (h | h | h)
            · exact Or.inl h
            · exact Or.inl (h ▸ hm)
            · exact Or.inr h
        · simp only [if_neg hm, List.mem_append, List.mem_singleton,
            List.mem_cons]
          tauto
  rw [keysOf, h l []]
  simp

/-- Week-1 scenario events: projects `A`, `B`, `C`, `D` with one-week
costs 100, 90, 80, 79 USD at a $1-per-million base-input price. -/
def c5eA : Record :=
  { filename := "projects/A/sa.jsonl", typ := some "assistant",
    timestamp := some (some tMonday), model := some "sonnet-x",
    usage := some (mkUsage (some 100000000) none none none none none) }

def c5eB : Record :=
  { filename := "projects/B/sb.jsonl", typ := some "assistant",
    timestamp := some (some tMonday), model := some "sonnet-x",
    usage := some (mkUsage (some 90000000) none none none none none) }

def c5eC : Record :=
  { filename := "projects/C/sc.jsonl", typ := some "assistant",
    timestamp := some (some tMonday), model := some "sonnet-x",
    usage := some (mkUsage (some 80000000) none none none none none) }

def c5eD : Record :=
  { filename := "projects/D/sd.jsonl", typ := some "assistant",
    timestamp := some (some tMonday), model := some "sonnet-x",
    usage := some (mkUsage (some 79000000) none none none none none) }

/-- 2025-01-13T10:00:00Z, the following Monday. -/
def tMonday2 : Nat := daysFromCivil 2025 1 13 * 1440 + 600

/-- Week-2 zero-cost activity for `B` and `C`: events of an unpriced
model. -/
def c5eB2 : Record :=
  { filename := "projects/B/sb2.jsonl", typ := some "assistant",
    timestamp := some (some tMonday2), model := some "mystery-model-2",
    usage := some (mkUsage (some 5000000) none none none none none) }

def c5eC2 : Record :=
  { filename := "projects/C/sc2.jsonl", typ := some "assistant",
    timestamp := some (some tMonday2), model := some "mystery-model-2",
    usage := some (mkUsage (some 5000000) none none none none none) }

def c5evs : List Record := [c5eA, c5eB, c5eC, c5eD, c5eB2, c5eC2]

/-- A sonnet-family price row charging $1 per million base-input
tokens. -/
def c5price : PriceRow := ⟨"sonnet", "sonnet-x", 1, 0, 0, 0, 0⟩

unseal Rat.mul Rat.add Rat.sub Rat.inv in
/-- C5 counterexample: in the `{A: 100, B: 90, C: 80, D: 79}` scenario
with week-2 activity for `B` and `C` only, selected project `A`
reports **no** row for week 2 even though week 2 is part of the window
(`B` and `C` report zero-cost week-2 rows) — a selected project gets no
row for a week in which it had no events, contradicting the claim's
"a row for every week of the window including weeks with zero
activity". -/
theorem c5_counterexample :
    ((topWeeklyRows c5evs [c5price]).filter (fun r =>
        decide (r.project_id = "A" ∧
          r.time_bucket = some (daysFromCivil 2025 1 13)))) = [] ∧
    ((topWeeklyRows c5evs [c5price]).filter (fun r =>
        decide (r.time_bucket = some (daysFromCivil 2025 1 13)))).map
      (fun r => (r.project_id, r.cost_usd)) = [("B", 0), ("C", 0)] := by
  refine ⟨by decide, by decide⟩

unseal Rat.mul Rat.add Rat.sub Rat.inv in
/-- C5 (amended): every detail-pass row belongs to a ranking-pass
project; every selected project gets a row for exactly the weeks in
which it has at least one event (zero-cost weeks included, empty weeks
omitted); and in the `{A: 100, B: 90, C: 80, D: 79}` scenario the
selection is exactly `A`, `B`, `C` with no row at all for `D`. -/
theorem c5_top_projects (rs : List Record) (P : List PriceRow) :
    (∀ row ∈ topWeeklyRows rs P, row.project_id ∈ topProjects rs P) ∧
    (∀ p ∈ topProjects rs P, ∀ r ∈ usageFilter rs,
      projectOf r.filename = p →
      ∃ row ∈ topWeeklyRows rs P, row.project_id = p ∧
        row.time_bucket = weekBucket r) ∧
    topProjects c5evs [c5price] = ["A", "B", "C"] ∧
    ((topWeeklyRows c5evs [c5price]).filter (fun r =>
      decide (r.project_id = "D"))) = [] := by
  refine ⟨?_, ?_, by decide, by decide⟩
  · intro row hrow
    rcases List.mem_map.mp hrow with ⟨k, hk, hbuild⟩
    rcases List.mem_map.mp ((mem_keysOf _ _).mp hk) with ⟨r, hr, hkr⟩
    unfold topJoined at hr
    rcases List.mem_filter.mp hr with ⟨_, hdec⟩
    have hproj : projectOf r.filename ∈ topProjects rs P :=
      of_decide_eq_true hdec
    have h1 : row.project_id = k.1 := by
      rw [← hbuild, topBuild_project_id]
    have h2 : k.1 = projectOf r.filename := by
      rw [← hkr]
      rfl
    rw [h1, h2]
    exact hproj
  · intro p hp r hr hpr
    have hj : r ∈ topJoined rs P := by
      unfold topJoined
      exact List.mem_filter.mpr ⟨hr, decide_eq_true (hpr ▸ hp)⟩
    have hk : topKey r ∈ keysOf ((topJoined rs P).map topKey) :=
      (mem_keysOf _ _).mpr (List.mem_map_of_mem topKey hj)
    refine ⟨topBuild rs P (topKey r), List.mem_map_of_mem _ hk, ?_, ?_⟩
    · rw [topBuild_project_id]
      exact hpr
    · rw [topBuild_time_bucket]
      rfl

unseal Rat.mul Rat.add Rat.sub Rat.inv in
/-- Witness for C5: selected project `A` does get a detail row for the
week of its week-1 event. -/
theorem c5_witness :
    "A" ∈ topProjects c5evs [c5price] ∧
    ∃ row ∈ topWeeklyRows c5evs [c5price], row.project_id = "A" ∧
      row.time_bucket = weekBucket c5eA :=
  ⟨by decide, (c5_top_projects c5evs [c5price]).2.1 "A" (by decide) c5eA
    (by decide) (by decide)⟩

/-! ## C6 — which timezone the time buckets use -/

/-- 2025-01-05T20:00:00Z — a Sunday in UTC, but already Monday
2025-01-06 06:00 in Melbourne (AEDT, UTC+11). -/
def t6 : Nat := daysFromCivil 2025 1 5 * 1440 + 1200

def c6rec : Record :=
  { filename := "projects/p1/s1.jsonl", sessionId := some "s1",
    typ := some "assistant", timestamp := some (some t6),
    model := some "claude-sonnet-4-5",
    usage := some (mkUsage (some 10) none none none none none) }

/-- C6 counterexample: for the event at 2025-01-05T20:00:00Z, the
weekly aggregation's bucket is the Monday of the *UTC* week
(2024-12-30), not the ISO Monday of the event's Melbourne week
(2025-01-06); likewise its day bucket is the UTC day 2025-01-05 while
the Melbourne calendar day (as the hourly view computes it) is
2025-01-06. -/
theorem c6_counterexample :
    (weeklyRows [c6rec] []).map (fun r => r.time_bucket) =
      [some (daysFromCivil 2024 12 30)] ∧
    mondayOf (dayOf (toMelbourne t6)) = daysFromCivil 2025 1 6 ∧
    daysFromCivil 2024 12 30 ≠ daysFromCivil 2025 1 6 ∧
    dayBucket c6rec = some (daysFromCivil 2025 1 5) ∧
    hourlyDate c6rec = some (daysFromCivil 2025 1 6) := by
  refine ⟨by decide, by decide, by decide, by decide, by decide⟩

/-- C6 (amended): for a parseable timestamp, the hourly view's day and
hour buckets are the Melbourne-local calendar day and hour of the
instant, while the weekly view's day/week/month buckets come from the
timestamp's unconverted UTC calendar values; each weekly bucket is the
ISO Monday on or before its (UTC) day. -/
theorem c6_time_buckets (r : Record) (t d : Nat)
    (ht : tsParsed r = some t) (hd : 6 ≤ d) :
    hourlyDate r = some (dayOf (toMelbourne t)) ∧
    hourlyHour r = some (hourOf (toMelbourne t)) ∧
    weekBucket r = some (mondayOf (dayOf t)) ∧
    dayBucket r = some (dayOf t) ∧
    monthBucket r = some (monthTruncOf (dayOf t)) ∧
    isoWeekday (mondayOf d) = 1 ∧ mondayOf d ≤ d ∧ d < mondayOf d + 7 := by
  refine ⟨?_, ?_, ?_, ?_, ?_, ?_, ?_, ?_⟩
  · rw [hourlyDate, ht]
    rfl
  · rw [hourlyHour, ht]
    rfl
  · rw [weekBucket, ht]
    rfl
  · rw [dayBucket, ht]
    rfl
  · rw [monthBucket, ht]
    rfl
  · unfold isoWeekday mondayOf
    omega
  · unfold mondayOf
    omega
  · unfold mondayOf
    omega

/-- Witness for C6 at the scenario event and day 2025-01-01. -/
theorem c6_witness :
    hourlyDate c6rec = some (dayOf (toMelbourne t6)) ∧
    hourlyHour c6rec = some (hourOf (toMelbourne t6)) ∧
    weekBucket c6rec = some (mondayOf (dayOf t6)) ∧
    dayBucket c6rec = some (dayOf t6) ∧
    monthBucket c6rec = some (monthTruncOf (dayOf t6)) ∧
    isoWeekday (mondayOf (daysFromCivil 2025 1 1)) = 1 ∧
    mondayOf (daysFromCivil 2025 1 1) ≤ daysFromCivil 2025 1 1 ∧
    daysFromCivil 2025 1 1 < mondayOf (daysFromCivil 2025 1 1) + 7 :=
  c6_time_buckets c6rec t6 (daysFromCivil 2025 1 1) (by decide) (by decide)

/-! ## C7 — the daily drill-down's timezone-mismatch marker -/

theorem ddBuild_timezone_status (rs : List Record) (P : List PriceRow)
    (proj : String) (k : String × Option Nat × Option Nat × Option String) :
    (ddBuild rs P proj k).timezone_status = tzStatus k.2.1 k.2.2.1 := rfl

theorem ddBuild_date_local (rs : List Record) (P : List PriceRow)
    (proj : String) (k : String × Option Nat × Option Nat × Option String) :
    (ddBuild rs P proj k).date_local = k.2.1 := rfl

theorem ddBuild_date_utc (rs : List Record) (P : List PriceRow)
    (proj : String) (k : String × Option Nat × Option Nat × Option String) :
    (ddBuild rs P proj k).date_utc = k.2.2.1 := rfl

/-- 2025-01-01T23:30:00Z — still New Year's Day in UTC, already
2025-01-02 10:30 in Melbourne (UTC+11). -/
def t7 : Nat := daysFromCivil 2025 1 1 * 1440 + 23 * 60 + 30

def c7rec : Record :=
  { filename := "projects/p1/s1.jsonl", sessionId := some "s1",
    typ := some "assistant", timestamp := some (some t7),
    model := some "claude-sonnet-4-5",
    usage := some (mkUsage (some 10) none none none none none) }

/-- C7: every daily drill-down row carries
`timezone_status = "TIMEZONE_MISMATCH"` exactly when its local and UTC
days differ (and `"ALIGNED"` otherwise), and the event at
2025-01-01T23:30:00Z reports `date_utc` 2025-01-01, `date_local`
2025-01-02 and the mismatch marker. -/
theorem c7_timezone_mismatch (rs : List Record) (P : List PriceRow)
    (proj : String) (row : DailyDetailRow)
    (hrow : row ∈ dailyDetailRows rs P proj) :
    (row.timezone_status = "TIMEZONE_MISMATCH" ↔
      row.date_local ≠ row.date_utc) ∧
    (dailyDetailRows [c7rec] [sonnetPricing] "p1").map (fun x =>
        (x.date_utc, x.date_local, x.timezone_status)) =
      [(some (daysFromCivil 2025 1 1), some (daysFromCivil 2025 1 2),
        "TIMEZONE_MISMATCH")] := by
  constructor
  · rcases List.mem_map.mp hrow with ⟨k, hk, hbuild⟩
    rcases List.mem_map.mp ((mem_keysOf _ _).mp hk) with ⟨r, _, hkr⟩
    have hst : row.timezone_status = tzStatus row.date_local row.date_utc := by
      rw [← hbuild, ddBuild_timezone_status, ddBuild_date_local,
        ddBuild_date_utc]
    have hdl : row.date_local = dateLocalOf r := by
      rw [← hbuild, ddBuild_date_local, ← hkr]
      rfl
    have hdu : row.date_utc = dateUtcOf r := by
      rw [← hbuild, ddBuild_date_utc, ← hkr]
      rfl
    rw [hst, hdl, hdu]
    cases h : tsParsed r with
    | none =>
        unfold dateLocalOf dateUtcOf
        rw [h]
        simp [tzStatus]
    | some t =>
        unfold dateLocalOf dateUtcOf
        rw [h]
        by_cases hab : dayOf (toMelbourne t) = dayOf t <;>
          simp [tzStatus, hab]
  · decide

unseal Rat.mul Rat.add Rat.sub Rat.inv in
/-- Witness for C7 at the scenario event's own drill-down row. -/
theorem c7_witness :
    ((ddBuild [c7rec] [sonnetPricing] "p1" (ddKey c7rec)).timezone_status =
        "TIMEZONE_MISMATCH" ↔
      (ddBuild [c7rec] [sonnetPricing] "p1" (ddKey c7rec)).date_local ≠
        (ddBuild [c7rec] [sonnetPricing] "p1" (ddKey c7rec)).date_utc) ∧
    (dailyDetailRows [c7rec] [sonnetPricing] "p1").map (fun x =>
        (x.date_utc, x.date_local, x.timezone_status)) =
      [(some (daysFromCivil 2025 1 1), some (daysFromCivil 2025 1 2),
        "TIMEZONE_MISMATCH")] :=
  c7_timezone_mismatch [c7rec] [sonnetPricing] "p1"
    (ddBuild [c7rec] [sonnetPricing] "p1" (ddKey c7rec)) (by decide)

/-! ## C8 — cost additivity under once-per-figure rounding -/

/-- A sum of a pointwise sum of measures splits. -/
theorem sumQ_add {α : Type _} (l : List α) (f g : α → Rat) :
    sumQ l (fun a => f a + g a) = sumQ l f + sumQ l g := by
  induction l with
  | nil => simp [sumQ]
  | cons a t ih =>
      unfold sumQ at ih ⊢
      simp only [List.map_cons, List.sum_cons, ih]
      ring

/-- A sum of nonnegative measures is nonnegative. -/
theorem sumQ_nonneg {α : Type _} (l : List α) (f : α → Rat)
    (h : ∀ a ∈ l, 0 ≤ f a) : 0 ≤ sumQ l f := by
  unfold sumQ
  apply List.sum_nonneg
  intro x hx
  rcases List.mem_map.mp hx with ⟨a, ha, rfl⟩
  exact h a ha

/-- A coalesced left-join price is nonnegative whenever every price of
the table is. -/
theorem prF_famPrice_nonneg (P : List PriceRow) (fam : String)
    (f : PriceRow → Rat) (hf : ∀ p ∈ P, 0 ≤ f p) :
    0 ≤ prF (famPrice P fam) f := by
  unfold famPrice prF
  cases h : P.find? (fun p => decide (p.model_family = fam)) with
  | none => exact le_refl 0
  | some p => exact hf p (List.mem_of_find?_eq_some h)

/-- A cost component is nonnegative whenever its joined price is. -/
theorem compCost_nonneg (p : Option PriceRow) (tok : Option Nat)
    (f : PriceRow → Rat) (hf : 0 ≤ prF p f) : 0 ≤ compCost p tok f := by
  unfold compCost
  exact mul_nonneg (div_nonneg (Nat.cast_nonneg _) (by norm_num)) hf

/-- Once-rounding moves a nonnegative quantity by at most half a unit
in the last place. -/
theorem roundTo_err (k : Nat) (q : Rat) (hq : 0 ≤ q) :
    |roundTo k q - q| ≤ 1 / (2 * 10 ^ k) := by
  rw [roundTo, if_pos hq]
  have c0 : (0 : Rat) < 10 ^ k := by positivity
  have h1 : ((⌊q * 10 ^ k + 1 / 2⌋ : Int) : Rat) ≤ q * 10 ^ k + 1 / 2 :=
    Int.floor_le _
  have h2 : q * 10 ^ k + 1 / 2 < (⌊q * 10 ^ k + 1 / 2⌋ : Int) + 1 :=
    Int.lt_floor_add_one _
  have key : ((⌊q * 10 ^ k + 1 / 2⌋ : Int) : Rat) / 10 ^ k - q =
      (((⌊q * 10 ^ k + 1 / 2⌋ : Int) : Rat) - q * 10 ^ k) / 10 ^ k := by
    field_simp
    ring
  rw [key, abs_div, abs_of_pos c0]
  have habs : |((⌊q * 10 ^ k + 1 / 2⌋ : Int) : Rat) - q * 10 ^ k| ≤ 1 / 2 :=
    abs_le.mpr ⟨by linarith, by linarith⟩
  calc |((⌊q * 10 ^ k + 1 / 2⌋ : Int) : Rat) - q * 10 ^ k| / 10 ^ k ≤
      (1 / 2) / 10 ^ k := by
        exact (div_le_div_iff_of_pos_right c0).mpr habs
    _ = 1 / (2 * 10 ^ k) := by ring

theorem weeklyBuild_total_cost (rs : List Record) (P : List PriceRow)
    (k : String × Option String × Option Nat × String) :
    (weeklyBuild rs P k).total_cost_usd =
      roundTo 4 (sumQ (weeklyGroup rs k) (weeklyCostExpr P)) := rfl

theorem weeklyBuild_components (rs : List Record) (P : List PriceRow)
    (k : String × Option String × Option Nat × String) :
    (weeklyBuild rs P k).cost_base_input =
        roundTo 4 (sumQ (weeklyGroup rs k) (costBase P)) ∧
      (weeklyBuild rs P k).cost_cache_5m_writes =
        roundTo 4 (sumQ (weeklyGroup rs k) (cost5m P)) ∧
      (weeklyBuild rs P k).cost_cache_1h_writes =
        roundTo 4 (sumQ (weeklyGroup rs k) (cost1h P)) ∧
      (weeklyBuild rs P k).cost_cache_reads =
        roundTo 4 (sumQ (weeklyGroup rs k) (costRead P)) ∧
      (weeklyBuild rs P k).cost_output =
        roundTo 4 (sumQ (weeklyGroup rs k) (costOut P)) :=
  ⟨rfl, rfl, rfl, rfl, rfl⟩

/-- The five-component split of the weekly per-event cost sum. -/
theorem sumQ_weeklyCostExpr (g : List Record) (P : List PriceRow) :
    sumQ g (weeklyCostExpr P) =
      sumQ g (costBase P) + sumQ g (cost5m P) + sumQ g (cost1h P) +
        sumQ g (costRead P) + sumQ g (costOut P) := by
  calc sumQ g (weeklyCostExpr P) =
      sumQ g (fun r => (fun r => costBase P r + cost5m P r + cost1h P r +
        costRead P r) r + (fun r => costOut P r) r) := rfl
    _ = sumQ g (fun r => costBase P r + cost5m P r + cost1h P r +
        costRead P r) + sumQ g (fun r => costOut P r) := sumQ_add ..
    _ = sumQ g (fun r => (fun r => costBase P r + cost5m P r + cost1h P r) r
          + (fun r => costRead P r) r) + sumQ g (fun r => costOut P r) := rfl
    _ = sumQ g (fun r => costBase P r + cost5m P r + cost1h P r) +
        sumQ g (fun r => costRead P r) + sumQ g (fun r => costOut P r) := by
          rw [sumQ_add]
    _ = sumQ g (fun r => (fun r => costBase P r + cost5m P r) r +
          (fun r => cost1h P r) r) + sumQ g (fun r => costRead P r) +
        sumQ g (fun r => costOut P r) := rfl
    _ = sumQ g (fun r => costBase P r + cost5m P r) +
        sumQ g (fun r => cost1h P r) + sumQ g (fun r => costRead P r) +
        sumQ g (fun r => costOut P r) := by
          rw [sumQ_add]
    _ = sumQ g (fun r => costBase P r) + sumQ g (fun r => cost5m P r) +
        sumQ g (fun r => cost1h P r) + sumQ g (fun r => costRead P r) +
        sumQ g (fun r => costOut P r) := by
          rw [sumQ_add]
    _ = _ := rfl

theorem costBase_nonneg (P : List PriceRow) (r : Record)
    (h : ∀ p ∈ P, 0 ≤ p.base_input_price) : 0 ≤ costBase P r :=
  compCost_nonneg _ _ _ (prF_famPrice_nonneg P _ _ h)

theorem cost5m_nonneg (P : List PriceRow) (r : Record)
    (h : ∀ p ∈ P, 0 ≤ p.cache_5m_write_price) : 0 ≤ cost5m P r :=
  compCost_nonneg _ _ _ (prF_famPrice_nonneg P _ _ h)

theorem cost1h_nonneg (P : List PriceRow) (r : Record)
    (h : ∀ p ∈ P, 0 ≤ p.cache_1h_write_price) : 0 ≤ cost1h P r :=
  compCost_nonneg _ _ _ (prF_famPrice_nonneg P _ _ h)

theorem costRead_nonneg (P : List PriceRow) (r : Record)
    (h : ∀ p ∈ P, 0 ≤ p.cache_read_price) : 0 ≤ costRead P r :=
  compCost_nonneg _ _ _ (prF_famPrice_nonneg P _ _ h)

theorem costOut_nonneg (P : List PriceRow) (r : Record)
    (h : ∀ p ∈ P, 0 ≤ p.output_price) : 0 ≤ costOut P r :=
  compCost_nonneg _ _ _ (prF_famPrice_nonneg P _ _ h)

theorem summaryView_grand (rs : List Record) (P : List PriceRow) :
    (summaryView rs P).grand_total_cost_usd =
      roundTo 2 (sumQ (usageFilter rs) (costBase P) +
        sumQ (usageFilter rs) (cost5m P) +
        sumQ (usageFilter rs) (costRead P) +
        sumQ (usageFilter rs) (costOut P)) := rfl

theorem summaryView_cost_columns (rs : List Record) (P : List PriceRow) :
    (summaryView rs P).total_cost_base_input =
        roundTo 2 (sumQ (usageFilter rs) (costBase P)) ∧
      (summaryView rs P).total_cost_cache_writes =
        roundTo 2 (sumQ (usageFilter rs) (cost5m P)) ∧
      (summaryView rs P).total_cost_cache_reads =
        roundTo 2 (sumQ (usageFilter rs) (costRead P)) ∧
      (summaryView rs P).total_cost_output =
        roundTo 2 (sumQ (usageFilter rs) (costOut P)) :=
  ⟨rfl, rfl, rfl, rfl⟩

/-- C8 (amended): with nonnegative prices, (a) the weekly total-cost
figure is the once-applied rounding of the exact sum of the five
unrounded component sums, (b) every weekly row's total agrees with the
sum of its five displayed components to within 3 units in the fourth
decimal place (the five components and the total are each rounded once,
independently), and (c) a summary row's grand total agrees with the sum
of its **four** displayed components to within 2.5 units in the second
decimal place — the summary carries no cache-1h component at all, which
is where the claim's five-component reading fails (see the
counterexample). -/
theorem c8_cost_additivity (rs : List Record) (P : List PriceRow)
    (hP : ∀ p ∈ P, 0 ≤ p.base_input_price ∧ 0 ≤ p.cache_5m_write_price ∧
      0 ≤ p.cache_1h_write_price ∧ 0 ≤ p.cache_read_price ∧
      0 ≤ p.output_price) :
    (∀ g : List Record, roundTo 4 (sumQ g (weeklyCostExpr P)) =
      roundTo 4 (sumQ g (costBase P) + sumQ g (cost5m P) +
        sumQ g (cost1h P) + sumQ g (costRead P) + sumQ g (costOut P))) ∧
    (∀ row ∈ weeklyRows rs P,
      |row.total_cost_usd - (row.cost_base_input +
        row.cost_cache_5m_writes + row.cost_cache_1h_writes +
        row.cost_cache_reads + row.cost_output)| ≤ 3 / 10000) ∧
    |(summaryView rs P).grand_total_cost_usd -
      ((summaryView rs P).total_cost_base_input +
        (summaryView rs P).total_cost_cache_writes +
        (summaryView rs P).total_cost_cache_reads +
        (summaryView rs P).total_cost_output)| ≤ 1 / 40 := by
  have hb := fun p hp => (hP p hp).1
  have h5 := fun p hp => (hP p hp).2.1
  have h1 := fun p hp => (hP p hp).2.2.1
  have hr := fun p hp => (hP p hp).2.2.2.1
  have ho := fun p hp => (hP p hp).2.2.2.2
  refine ⟨fun g => by rw [sumQ_weeklyCostExpr], ?_, ?_⟩
  · intro row hrow
    rcases List.mem_map.mp hrow with ⟨k, _, hbuild⟩
    have hSb := sumQ_nonneg (weeklyGroup rs k) (costBase P)
      (fun a _ => costBase_nonneg P a hb)
    have hS5 := sumQ_nonneg (weeklyGroup rs k) (cost5m P)
      (fun a _ => cost5m_nonneg P a h5)
    have hS1 := sumQ_nonneg (weeklyGroup rs k) (cost1h P)
      (fun a _ => cost1h_nonneg P a h1)
    have hSr := sumQ_nonneg (weeklyGroup rs k) (costRead P)
      (fun a _ => costRead_nonneg P a hr)
    have hSo := sumQ_nonneg (weeklyGroup rs k) (costOut P)
      (fun a _ => costOut_nonneg P a ho)
    have hTsum := sumQ_weeklyCostExpr (weeklyGroup rs k) P
    have hT0 : 0 ≤ sumQ (weeklyGroup rs k) (weeklyCostExpr P) := by
      rw [hTsum]
      linarith
    have e0 := abs_le.mp (roundTo_err 4 _ hT0)
    have e1 := abs_le.mp (roundTo_err 4 _ hSb)
    have e2 := abs_le.mp (roundTo_err 4 _ hS5)
    have e3 := abs_le.mp (roundTo_err 4 _ hS1)
    have e4 := abs_le.mp (roundTo_err 4 _ hSr)
    have e5 := abs_le.mp (roundTo_err 4 _ hSo)
    rw [← hbuild, weeklyBuild_total_cost,
      (weeklyBuild_components rs P k).1,
      (weeklyBuild_components rs P k).2.1,
      (weeklyBuild_components rs P k).2.2.1,
      (weeklyBuild_components rs P k).2.2.2.1,
      (weeklyBuild_components rs P k).2.2.2.2]
    apply abs_le.mpr
    constructor
    · norm_num at e0 e1 e2 e3 e4 e5 ⊢
      linarith
    · norm_num at e0 e1 e2 e3 e4 e5 ⊢
      linarith
  · have hSb := sumQ_nonneg (usageFilter rs) (costBase P)
      (fun a _ => costBase_nonneg P a hb)
    have hS5 := sumQ_nonneg (usageFilter rs) (cost5m P)
      (fun a _ => cost5m_nonneg P a h5)
    have hSr := sumQ_nonneg (usageFilter rs) (costRead P)
      (fun a _ => costRead_nonneg P a hr)
    have hSo := sumQ_nonneg (usageFilter rs) (costOut P)
      (fun a _ => costOut_nonneg P a ho)
    have hG0 : 0 ≤ sumQ (usageFilter rs) (costBase P) +
        sumQ (usageFilter rs) (cost5m P) +
        sumQ (usageFilter rs) (costRead P) +
        sumQ (usageFilter rs) (costOut P) := by
      linarith
    have e0 := abs_le.mp (roundTo_err 2 _ hG0)
    have e1 := abs_le.mp (roundTo_err 2 _ hSb)
    have e2 := abs_le.mp (roundTo_err 2 _ hS5)
    have e3 := abs_le.mp (roundTo_err 2 _ hSr)
    have e4 := abs_le.mp (roundTo_err 2 _ hSo)
    rw [summaryView_grand, (summaryView_cost_columns rs P).1,
      (summaryView_cost_columns rs P).2.1,
      (summaryView_cost_columns rs P).2.2.1,
      (summaryView_cost_columns rs P).2.2.2]
    apply abs_le.mpr
    constructor
    · norm_num at e0 e1 e2 e3 e4 ⊢
      linarith
    · norm_num at e0 e1 e2 e3 e4 ⊢
      linarith

/-- An event holding only 1-hour ephemeral cache-write tokens. -/
def c8rec : Record :=
  { filename := "projects/p1/s1.jsonl", sessionId := some "s1",
    typ := some "assistant", timestamp := some (some tMonday),
    model := some "claude-sonnet-4-5",
    usage := some (mkUsage none none none none (some 1000000) none) }

unseal Rat.mul Rat.add Rat.sub Rat.inv in
/-- C8 counterexample: for one event with 1,000,000 1-hour
cache-write tokens at a $6-per-million 1h price, the summary view's
grand total is $0 while the five-component cost (as the weekly view
prices the same event) is $6 — a summary-level row's total is *not*
the sum of the five components to 2 decimal places, because the
summary omits the cache-1h component entirely. -/
theorem c8_counterexample :
    (summaryView [c8rec] [sonnetPricing]).grand_total_cost_usd = 0 ∧
    sumQ (usageFilter [c8rec]) (weeklyCostExpr [sonnetPricing]) = 6 ∧
    (weeklyRows [c8rec] [sonnetPricing]).map
      (fun r => r.total_cost_usd) = [6] := by
  refine ⟨by decide, by decide, by decide⟩

unseal Rat.mul Rat.add Rat.sub Rat.inv in
/-- Witness for C8 against the scenario pricing table. -/
theorem c8_witness :
    |(summaryView [c1rec1, c1rec2] [sonnetPricing]).grand_total_cost_usd -
      ((summaryView [c1rec1, c1rec2] [sonnetPricing]).total_cost_base_input +
        (summaryView [c1rec1, c1rec2]
          [sonnetPricing]).total_cost_cache_writes +
        (summaryView [c1rec1, c1rec2]
          [sonnetPricing]).total_cost_cache_reads +
        (summaryView [c1rec1, c1rec2]
          [sonnetPricing]).total_cost_output)| ≤ 1 / 40 :=
  (c8_cost_additivity [c1rec1, c1rec2] [sonnetPricing]
    (by decide)).2.2

/-! ## C9 — the schema-drift tracker's day and genuine-timestamp flag -/

theorem schemaBuild_flag (rs : List Record) (mt : List (String × Nat))
    (k : String × Option Nat) :
    (schemaBuild rs mt k).has_record_timestamp =
      ((schemaPathEvents rs mt).filter
        (fun e => decide (schemaKey e = k))).any
        (·.has_record_timestamp) := rfl

theorem schemaBuild_json_path (rs : List Record)
    (mt : List (String × Nat)) (k : String × Option Nat) :
    (schemaBuild rs mt k).json_path = k.1 := rfl

theorem schemaBuild_event_date (rs : List Record)
    (mt : List (String × Nat)) (k : String × Option Nat) :
    (schemaBuild rs mt k).event_date = k.2 := rfl

/-- A record whose `timestamp` field is present but does not parse. -/
def c9rec : Record :=
  { filename := "projects/p1/s1.jsonl", sessionId := some "s1",
    typ := some "user", timestamp := some none }

/-- The externally supplied file-modification-day table: `s1.jsonl` was
last modified on 2025-01-03. -/
def c9mt : List (String × Nat) :=
  [("projects/p1/s1.jsonl", daysFromCivil 2025 1 3)]

/-- C9 counterexample: a record with a present but unparseable
timestamp gets its observation day from the file-mtime fallback
(`tsParsed = none`), yet every `(json_path, day)` row it produces is
flagged `has_record_timestamp = true` — the flag tests field presence,
not parseability, so a pure-fallback day is reported as a genuine
timestamp day. -/
theorem c9_counterexample :
    tsParsed c9rec = none ∧ tsPresent c9rec = true ∧
    (schemaDaily [c9rec] c9mt).map (fun x =>
        (x.json_path, x.event_date, x.has_record_timestamp)) =
      [("type", some (daysFromCivil 2025 1 3), true),
       ("timestamp", some (daysFromCivil 2025 1 3), true),
       ("sessionId", some (daysFromCivil 2025 1 3), true)] := by
  refine ⟨by decide, by decide, by decide⟩

/-- C9 (amended): the observation day of a record is its own timestamp
day when the timestamp parses and the file's modification day
otherwise; but each unpivoted observation's genuine-timestamp marker
records whether the `timestamp` field was *present* (parseable or
not), and a daily row's marker is true exactly when some contributing
observation carried a present timestamp field. -/
theorem c9_schema_day_flag (rs : List Record)
    (mt : List (String × Nat)) :
    (∀ r : Record, ∀ t : Nat, tsParsed r = some t →
      eventDateOf mt r = some (dayOf t)) ∧
    (∀ r : Record, tsParsed r = none →
      eventDateOf mt r = mtimeOf mt r.filename) ∧
    (∀ (r : Record), ∀ e ∈ pathEvents mt r,
      e.has_record_timestamp = tsPresent r) ∧
    (∀ row ∈ schemaDaily rs mt, row.has_record_timestamp = true ↔
      ∃ e ∈ schemaPathEvents rs mt,
        schemaKey e = (row.json_path, row.event_date) ∧
        e.has_record_timestamp = true) := by
  refine ⟨?_, ?_, ?_, ?_⟩
  · intro r t ht
    rw [eventDateOf, ht]
    rfl
  · intro r ht
    rw [eventDateOf, ht]
    rfl
  · intro r e he
    rcases List.mem_map.mp he with ⟨p, _, rfl⟩
    rfl
  · intro row hrow
    rcases List.mem_map.mp hrow with ⟨k, _, hbuild⟩
    rw [← hbuild, schemaBuild_flag, schemaBuild_json_path,
      schemaBuild_event_date, List.any_eq_true]
    constructor
    · rintro ⟨e, he, hf⟩
      rcases List.mem_filter.mp he with ⟨hmem, hdec⟩
      refine ⟨e, hmem, ?_, hf⟩
      rw [of_decide_eq_true hdec]
    · rintro ⟨e, hmem, hkey, hf⟩
      exact ⟨e, List.mem_filter.mpr
        ⟨hmem, decide_eq_true (by rw [hkey])⟩, hf⟩

/-- Witness for C9: the malformed-timestamp record falls back to the
mtime day, and a record with a parseable timestamp keeps its own
day. -/
theorem c9_witness :
    eventDateOf c9mt c9rec = mtimeOf c9mt c9rec.filename ∧
    eventDateOf c9mt c7rec = some (dayOf t7) :=
  ⟨(c9_schema_day_flag [c9rec] c9mt).2.1 c9rec (by decide),
   (c9_schema_day_flag [c9rec] c9mt).1 c7rec t7 (by decide)⟩

/-! ## C10 — the session-events view's constant agent columns -/

/-- C10: every row of the session-events view carries
`agent_id = NULL`, `is_sidechain = false` and `agent_slug = NULL`
regardless of the underlying record's `agentId`/`isSidechain`/`slug`
values, and its `is_subagent_file` flag is exactly the
`/subagents/`-path test on the row's own file path. -/
theorem c10_session_events_constants (rs : List Record)
    (row : SessionEventRow) (hrow : row ∈ sessionEvents rs) :
    row.agent_id = none ∧ row.is_sidechain = false ∧
    row.agent_slug = none ∧
    row.is_subagent_file = isSubagentsPath row.filepath := by
  rcases List.mem_map.mp hrow with ⟨r, _, rfl⟩
  exact ⟨rfl, rfl, rfl, rfl⟩

/-- A new-style subagent transcript record that *does* carry
`agentId`, `slug` and a true `isSidechain`. -/
def c10rec : Record :=
  { filename := "projects/p1/s1/subagents/a1.jsonl",
    sessionId := some "s1", agentId := some "a1",
    isSidechain := some true, slug := some "Explore",
    typ := some "assistant", timestamp := some (some tMonday),
    model := some "claude-sonnet-4-5",
    usage := some (mkUsage (some 10) none none none none none) }

/-- Witness for C10 on a record whose agent fields are all set: the
view still reports the constants, and flags the file by its path. -/
theorem c10_witness :
    ∃ row ∈ sessionEvents [c10rec], row.agent_id = none ∧
      row.is_sidechain = false ∧ row.agent_slug = none ∧
      row.is_subagent_file = isSubagentsPath row.filepath :=
  ⟨(sessionEvents [c10rec]).head (by decide),
   List.head_mem (by decide),
   c10_session_events_constants [c10rec] _ (List.head_mem (by decide))⟩

end ClaudeSessions
